import Mathlib

/-!
Verification of the crypto trading bot core (indicators, strategies, risk
sizing, execution loop) against its natural-language specification.

All numeric code is embedded over `ℚ` (the Python source computes with IEEE
floats; we model the ideal real arithmetic the algorithms are written for).
Pandas "NaN / undefined" values are modelled with `Option`, and the sequential
loops of the source are modelled as explicit structural recursions.
-/

namespace TradingBot

/-! ## Risk sizing in `TradingEngine._execute_buy` (trading_engine.py:953-974)

The engine computes, in order: the risk-derived raw quantity, the
max-position-size cap, the $10 minimum-notional bump, and a final rounding of
the quantity to 8 decimal places.
-/

/-- Engine risk settings (percentages, as stored in `self.settings`). -/
structure EngineSettings where
  max_position_size : ℚ
  risk_per_trade : ℚ
  stop_loss_percent : ℚ
  take_profit_percent : ℚ
deriving DecidableEq, Repr

/-- trading_engine.py:931 — `max_position_value = portfolio_value * (max_position_size / 100.0)`. -/
def maxPositionValue (pv : ℚ) (s : EngineSettings) : ℚ :=
  pv * (s.max_position_size / 100)

/-- trading_engine.py:954 — `risk_amount = portfolio_value * (risk_per_trade / 100.0)`. -/
def riskAmount (pv : ℚ) (s : EngineSettings) : ℚ :=
  pv * (s.risk_per_trade / 100)

/-- trading_engine.py:956 — `stop_loss_price = latest_price * (1 - stop_loss_percent)`. -/
def stopLossPrice (price : ℚ) (s : EngineSettings) : ℚ :=
  price * (1 - s.stop_loss_percent / 100)

/-- trading_engine.py:957 — `risk_per_share = latest_price - stop_loss_price`. -/
def riskPerShare (price : ℚ) (s : EngineSettings) : ℚ :=
  price - stopLossPrice price s

/-- trading_engine.py:960 — `quantity = risk_amount / risk_per_share if risk_per_share > 0 else 0`. -/
def rawQuantity (pv price : ℚ) (s : EngineSettings) : ℚ :=
  if riskPerShare price s > 0 then riskAmount pv s / riskPerShare price s else 0

/-- trading_engine.py:962-966 — shrink the quantity when its notional exceeds
`max_position_value`. -/
def cappedQuantity (pv price : ℚ) (s : EngineSettings) : ℚ :=
  let q := rawQuantity pv price s
  if q * price > maxPositionValue pv s then maxPositionValue pv s / price else q

/-- trading_engine.py:968-971 — bump the quantity up to a $10 notional when the
trade value is below the $10 minimum. -/
def minQuantity (pv price : ℚ) (s : EngineSettings) : ℚ :=
  let q := cappedQuantity pv price s
  if q * price < 10 then 10 / price else q

/-- Round-half-to-even to an integer (the tie rule of Python `round`). -/
def roundHalfEven (x : ℚ) : ℤ :=
  let f := ⌊x⌋
  if x - f < 1/2 then f
  else if x - f > 1/2 then f + 1
  else if f % 2 = 0 then f else f + 1

/-- trading_engine.py:974 — `quantity = round(quantity, 8)`. -/
def roundTo8 (x : ℚ) : ℚ :=
  (roundHalfEven (x * 100000000) : ℚ) / 100000000

/-- The final buy quantity produced by `_execute_buy`'s sizing step
(trading_engine.py:953-974). -/
def executeBuyQuantity (pv price : ℚ) (s : EngineSettings) : ℚ :=
  roundTo8 (minQuantity pv price s)

/-- utils/portfolio.py:143-166 — `calculate_position_size`. -/
def calculate_position_size (account_value risk_per_trade entry_price stop_loss : ℚ) : ℚ :=
  let risk_pct := risk_per_trade / 100
  let risk_amount := account_value * risk_pct
  let risk_per_share := |entry_price - stop_loss|
  if risk_per_share > 0 then risk_amount / risk_per_share else 0

/-! Helper lemmas for the sizing bounds. -/

theorem roundHalfEven_le (x : ℚ) : |((roundHalfEven x : ℚ)) - x| ≤ 1/2 := by
  unfold roundHalfEven
  have hf : (⌊x⌋ : ℚ) ≤ x := Int.floor_le x
  have hf1 : x < (⌊x⌋ : ℚ) + 1 := Int.lt_floor_add_one x
  by_cases h1 : x - (⌊x⌋ : ℚ) < 1/2
  · simp only [h1, if_true]
    rw [abs_le]; constructor <;> linarith
  · simp only [h1, if_false]
    by_cases h2 : x - (⌊x⌋ : ℚ) > 1/2
    · simp only [h2, if_true]
      push_cast
      rw [abs_le]; constructor <;> linarith
    · simp only [h2, if_false]
      have hx : x - (⌊x⌋ : ℚ) = 1/2 := by linarith
      by_cases h3 : ⌊x⌋ % 2 = 0 <;> simp only [h3, if_true, if_false] <;>
        [skip; push_cast] <;> (rw [abs_le]; constructor <;> linarith)

theorem roundTo8_close (x : ℚ) : |roundTo8 x - x| ≤ 1 / 200000000 := by
  unfold roundTo8
  have h := roundHalfEven_le (x * 100000000)
  have he : (roundHalfEven (x * 100000000) : ℚ) / 100000000 - x
      = ((roundHalfEven (x * 100000000) : ℚ) - x * 100000000) / 100000000 := by ring
  rw [he, abs_div, abs_of_pos (by norm_num : (0:ℚ) < 100000000)]
  calc |(roundHalfEven (x * 100000000) : ℚ) - x * 100000000| / 100000000
      ≤ (1/2) / 100000000 := by
        exact (div_le_div_iff_of_pos_right (by norm_num)).mpr h
    _ = 1 / 200000000 := by norm_num

theorem roundHalfEven_intCast (n : ℤ) : roundHalfEven (n : ℚ) = n := by
  unfold roundHalfEven
  rw [Int.floor_intCast]
  norm_num

theorem roundTo8_of_int (x : ℚ) (n : ℤ) (h : x * 100000000 = (n : ℚ)) :
    roundTo8 x = (n : ℚ) / 100000000 := by
  unfold roundTo8
  rw [h, roundHalfEven_intCast]

theorem roundTo8_of_gt_half (x : ℚ) (n : ℤ)
    (h1 : (n : ℚ) ≤ x * 100000000) (h2 : 1/2 < x * 100000000 - n)
    (h3 : x * 100000000 < n + 1) :
    roundTo8 x = ((n + 1 : ℤ) : ℚ) / 100000000 := by
  unfold roundTo8 roundHalfEven
  have hf : ⌊x * 100000000⌋ = n := Int.floor_eq_iff.mpr ⟨h1, h3⟩
  rw [hf]
  have hlt : ¬ (x * 100000000 - (n : ℚ) < 1/2) := by linarith
  simp only [hlt, if_false, h2, if_true]

theorem cappedQuantity_le (pv price : ℚ) (s : EngineSettings) (hp : 0 < price) :
    cappedQuantity pv price s * price ≤ max (maxPositionValue pv s) (rawQuantity pv price s * price) := by
  unfold cappedQuantity
  by_cases h : rawQuantity pv price s * price > maxPositionValue pv s
  · simp only [h, if_true]
    rw [div_mul_cancel₀ _ (ne_of_gt hp)]
    exact le_max_left _ _
  · simp only [h, if_false]
    exact le_max_right _ _

theorem minQuantity_le (pv price : ℚ) (s : EngineSettings) (hp : 0 < price) :
    minQuantity pv price s * price ≤ max (maxPositionValue pv s) 10 := by
  unfold minQuantity
  by_cases h : cappedQuantity pv price s * price < 10
  · simp only [h, if_true]
    rw [div_mul_cancel₀ _ (ne_of_gt hp)]
    exact le_max_right _ _
  · simp only [h, if_false]
    push_neg at h
    have hc := cappedQuantity_le pv price s hp
    rcases le_or_lt (rawQuantity pv price s * price) (maxPositionValue pv s) with h2 | h2
    · exact le_trans hc (le_trans (max_le le_rfl h2) (le_max_left _ _))
    · unfold cappedQuantity at *
      simp only [h2, if_true] at *
      rw [div_mul_cancel₀ _ (ne_of_gt hp)]
      exact le_max_left _ _

/-- C2 (amended): for every portfolio value, every positive reference price and
all risk settings, the notional of the sized buy order never exceeds
`max(portfolio_value × max_position_size_percent, $10)` plus the slack of the
final 8-decimal rounding (at most `price/2·10⁸`); and whenever the risk-derived
quantity's notional exceeds the cap, the cap step shrinks it to exactly the cap. -/
theorem execute_buy_notional_cap (pv price : ℚ) (s : EngineSettings) (hp : 0 < price) :
    executeBuyQuantity pv price s * price
        ≤ max (maxPositionValue pv s) 10 + price / 200000000
    ∧ (rawQuantity pv price s * price > maxPositionValue pv s →
        cappedQuantity pv price s * price = maxPositionValue pv s) := by
  constructor
  · have h1 := minQuantity_le pv price s hp
    have h2 := roundTo8_close (minQuantity pv price s)
    have h3 : roundTo8 (minQuantity pv price s) ≤ minQuantity pv price s + 1 / 200000000 := by
      have := abs_le.mp h2
      linarith [this.2]
    unfold executeBuyQuantity
    calc roundTo8 (minQuantity pv price s) * price
        ≤ (minQuantity pv price s + 1 / 200000000) * price := by
          exact mul_le_mul_of_nonneg_right h3 (le_of_lt hp)
      _ = minQuantity pv price s * price + price / 200000000 := by ring
      _ ≤ max (maxPositionValue pv s) 10 + price / 200000000 := by linarith
  · intro h
    unfold cappedQuantity
    simp only [h, if_true]
    exact div_mul_cancel₀ _ (ne_of_gt hp)

/-- Witness for `execute_buy_notional_cap` at portfolio value 10000, price 100,
settings (20% cap, 2% risk, 2% stop loss). -/
theorem execute_buy_notional_cap_witness :
    executeBuyQuantity 10000 100 ⟨20, 2, 2, 4⟩ * 100
        ≤ max (maxPositionValue 10000 ⟨20, 2, 2, 4⟩) 10 + 100 / 200000000 :=
  (execute_buy_notional_cap 10000 100 ⟨20, 2, 2, 4⟩ (by norm_num)).1

/-- C2 counterexample: with portfolio value 100 and a 5% position cap the cap is
$5, below the $10 minimum notional, and the minimum-notional bump produces a $10
order that violates the cap; and even with the $2000 cap of the C3 scenario, at
price 3 the 8-decimal rounding of quantity 2000/3 rounds up, putting the final
notional strictly above the cap. -/
theorem execute_buy_cap_counterexample :
    (maxPositionValue 100 ⟨5, 2, 2, 4⟩ = 5
      ∧ executeBuyQuantity 100 100 ⟨5, 2, 2, 4⟩ * 100 = 10)
    ∧ (maxPositionValue 10000 ⟨20, 2, 2, 4⟩ = 2000
      ∧ executeBuyQuantity 10000 3 ⟨20, 2, 2, 4⟩ * 3 > 2000) := by
  refine ⟨⟨by norm_num [maxPositionValue], ?_⟩, ⟨by norm_num [maxPositionValue], ?_⟩⟩
  · have hm : minQuantity 100 100 ⟨5, 2, 2, 4⟩ = 1/10 := by
      norm_num [minQuantity, cappedQuantity, rawQuantity, riskAmount, riskPerShare,
        stopLossPrice, maxPositionValue]
    unfold executeBuyQuantity
    rw [hm, roundTo8_of_int (1/10) 10000000 (by norm_num)]
    norm_num
  · have hm : minQuantity 10000 3 ⟨20, 2, 2, 4⟩ = 2000/3 := by
      norm_num [minQuantity, cappedQuantity, rawQuantity, riskAmount, riskPerShare,
        stopLossPrice, maxPositionValue]
    unfold executeBuyQuantity
    rw [hm, roundTo8_of_gt_half (2000/3) 66666666666 (by norm_num) (by norm_num) (by norm_num)]
    norm_num

/-- C3: the end-to-end sizing scenario — portfolio value 10000, max position
size 20%, risk per trade 2%, stop loss 2%, reference price 100: stop loss price
98, risk per unit 2, risk amount 200, raw quantity 100 (notional 10000 exceeds
the 2000 cap), and the order is sized down to quantity 20 with notional exactly
2000; `portfolio.calculate_position_size` computes the same raw quantity 100. -/
theorem execute_buy_scenario_C3 :
    stopLossPrice 100 ⟨20, 2, 2, 4⟩ = 98
    ∧ riskPerShare 100 ⟨20, 2, 2, 4⟩ = 2
    ∧ riskAmount 10000 ⟨20, 2, 2, 4⟩ = 200
    ∧ rawQuantity 10000 100 ⟨20, 2, 2, 4⟩ = 100
    ∧ rawQuantity 10000 100 ⟨20, 2, 2, 4⟩ * 100 = 10000
    ∧ maxPositionValue 10000 ⟨20, 2, 2, 4⟩ = 2000
    ∧ rawQuantity 10000 100 ⟨20, 2, 2, 4⟩ * 100 > maxPositionValue 10000 ⟨20, 2, 2, 4⟩
    ∧ cappedQuantity 10000 100 ⟨20, 2, 2, 4⟩ = 20
    ∧ executeBuyQuantity 10000 100 ⟨20, 2, 2, 4⟩ = 20
    ∧ executeBuyQuantity 10000 100 ⟨20, 2, 2, 4⟩ * 100 = 2000
    ∧ calculate_position_size 10000 2 100 98 = 100 := by
  have hq : executeBuyQuantity 10000 100 ⟨20, 2, 2, 4⟩ = 20 := by
    have hm : minQuantity 10000 100 ⟨20, 2, 2, 4⟩ = 20 := by
      norm_num [minQuantity, cappedQuantity, rawQuantity, riskAmount, riskPerShare,
        stopLossPrice, maxPositionValue]
    unfold executeBuyQuantity
    rw [hm, roundTo8_of_int 20 2000000000 (by norm_num)]
    norm_num
  refine ⟨by norm_num [stopLossPrice], by norm_num [riskPerShare, stopLossPrice],
    by norm_num [riskAmount], ?_, ?_, by norm_num [maxPositionValue], ?_, ?_, hq,
    by rw [hq]; norm_num, by norm_num [calculate_position_size]⟩
  · norm_num [rawQuantity, riskAmount, riskPerShare, stopLossPrice]
  · norm_num [rawQuantity, riskAmount, riskPerShare, stopLossPrice]
  · norm_num [rawQuantity, riskAmount, riskPerShare, stopLossPrice, maxPositionValue]
  · norm_num [cappedQuantity, rawQuantity, riskAmount, riskPerShare, stopLossPrice,
      maxPositionValue]

/-! ## The in-memory strategy registry (trading_engine.py:189-208, 480-493)

`self.strategies` is a dict from symbol to a list of strategy instances, with
insertion-ordered keys; we model it as an association list.  A registry entry
is identified by its numeric id and its strategy type (used by `isinstance`
filtering in `remove_strategy`).
-/

/-- A strategy instance as far as the registry operations inspect it. -/
structure StratInfo where
  id : ℕ
  stype : String
deriving DecidableEq, Repr

/-- The registry: symbol ↦ list of strategies, in dict insertion order. -/
abbrev Registry := List (String × List StratInfo)

/-- trading_engine.py:189-193 — `add_strategy` creates the key with an empty
list if absent, then appends the new instance. -/
def addStrategy (reg : Registry) (sym : String) (s : StratInfo) : Registry :=
  if reg.any (fun p => p.1 = sym) then
    reg.map (fun p => if p.1 = sym then (p.1, p.2 ++ [s]) else p)
  else
    reg ++ [(sym, [s])]

/-- trading_engine.py:200-208 — `remove_strategy` filters out instances of the
given type and deletes the symbol key when the remaining list is empty. -/
def removeStrategy (reg : Registry) (sym stype : String) : Registry :=
  if reg.any (fun p => p.1 = sym) then
    (reg.map (fun p => if p.1 = sym then (p.1, p.2.filter (fun st => ¬ st.stype = stype)) else p)).filter
      (fun p => ¬(p.1 = sym ∧ p.2 = []))
  else reg

/-- trading_engine.py:486 — `strategies.pop(i)` at the first index whose
strategy has the given id. -/
def popFirstById (l : List StratInfo) (sid : ℕ) : List StratInfo :=
  match l with
  | [] => []
  | s :: ss => if s.id = sid then ss else s :: popFirstById ss sid

/-- trading_engine.py:480-493 — `delete_strategy` scans symbols in dict order,
pops the first instance with the matching id, deletes the symbol key when its
list becomes empty, and stops at the first match. -/
def deleteStrategy (reg : Registry) (sid : ℕ) : Registry :=
  match reg with
  | [] => []
  | (sym, l) :: rest =>
    if l.any (fun st => st.id = sid) then
      let l' := popFirstById l sid
      if l' = [] then rest else (sym, l') :: rest
    else (sym, l) :: deleteStrategy rest sid

/-- One call on the registry's mutating interface. -/
inductive RegOp where
  | add (sym : String) (s : StratInfo)
  | remove (sym stype : String)
  | deleteId (sid : ℕ)
deriving DecidableEq, Repr

def applyOp (reg : Registry) : RegOp → Registry
  | .add sym s => addStrategy reg sym s
  | .remove sym stype => removeStrategy reg sym stype
  | .deleteId sid => deleteStrategy reg sid

/-- The registry obtained from the empty dict by a sequence of calls. -/
def applyOps (ops : List RegOp) : Registry :=
  ops.foldl applyOp []

/-- No symbol maps to an empty list of strategies. -/
def NoEmptyEntry (reg : Registry) : Prop :=
  ∀ p ∈ reg, p.2 ≠ []

theorem addStrategy_noEmpty {reg : Registry} (h : NoEmptyEntry reg) (sym : String)
    (s : StratInfo) : NoEmptyEntry (addStrategy reg sym s) := by
  unfold addStrategy
  by_cases hc : reg.any (fun p => p.1 = sym)
  · simp only [hc, if_true]
    intro p hp
    rcases List.mem_map.mp hp with ⟨q, hq, rfl⟩
    by_cases he : q.1 = sym
    · simp only [he, if_true]
      simp
    · simp only [he, if_false]
      exact h q hq
  · simp only [hc, if_false]
    intro p hp
    rcases List.mem_append.mp hp with h1 | h1
    · exact h p h1
    · rcases List.mem_singleton.mp h1 with rfl
      simp

theorem removeStrategy_noEmpty {reg : Registry} (h : NoEmptyEntry reg)
    (sym stype : String) : NoEmptyEntry (removeStrategy reg sym stype) := by
  unfold removeStrategy
  by_cases hc : reg.any (fun p => p.1 = sym)
  · simp only [hc, if_true]
    intro p hp
    have hmem := List.mem_filter.mp hp
    have hsurv := hmem.2
    rcases List.mem_map.mp hmem.1 with ⟨q, hq, rfl⟩
    by_cases he : q.1 = sym
    · simp only [he, if_true] at hsurv ⊢
      intro habs
      simp only [habs] at hsurv
      simp at hsurv
    · simp only [he, if_false] at hsurv ⊢
      exact h q hq
  · simp only [hc, if_false]
    exact h

theorem deleteStrategy_noEmpty {reg : Registry} (h : NoEmptyEntry reg)
    (sid : ℕ) : NoEmptyEntry (deleteStrategy reg sid) := by
  induction reg with
  | nil => intro p hp; simp [deleteStrategy] at hp
  | cons hd tl ih =>
    obtain ⟨sym, l⟩ := hd
    have hhd : l ≠ [] := h (sym, l) (List.mem_cons_self _ _)
    have htl : NoEmptyEntry tl := fun p hp => h p (List.mem_cons_of_mem _ hp)
    unfold deleteStrategy
    by_cases hc : l.any (fun st => st.id = sid)
    · simp only [hc, if_true]
      by_cases he : popFirstById l sid = []
      · simp only [he, if_true]
        exact htl
      · simp only [he, if_false]
        intro p hp
        rcases List.mem_cons.mp hp with rfl | hp2
        · exact he
        · exact htl p hp2
    · simp only [hc, if_false]
      intro p hp
      rcases List.mem_cons.mp hp with rfl | hp2
      · exact hhd
      · exact ih htl p hp2

theorem applyOp_noEmpty {reg : Registry} (h : NoEmptyEntry reg) (op : RegOp) :
    NoEmptyEntry (applyOp reg op) := by
  cases op with
  | add sym s => exact addStrategy_noEmpty h sym s
  | remove sym stype => exact removeStrategy_noEmpty h sym stype
  | deleteId sid => exact deleteStrategy_noEmpty h sid

theorem foldl_applyOp_noEmpty (ops : List RegOp) {reg : Registry}
    (h : NoEmptyEntry reg) : NoEmptyEntry (ops.foldl applyOp reg) := by
  induction ops generalizing reg with
  | nil => exact h
  | cons op rest ih => exact ih (applyOp_noEmpty h op)

/-- C10: after any sequence of `add_strategy`, `delete_strategy` and
`remove_strategy` calls starting from the empty registry, no symbol key maps to
an empty list of strategy instances. -/
theorem registry_never_empty_list (ops : List RegOp) (p : String × List StratInfo)
    (hp : p ∈ applyOps ops) : p.2 ≠ [] :=
  foldl_applyOp_noEmpty ops (fun q hq => absurd hq (List.not_mem_nil q)) p hp

/-- Witness for `registry_never_empty_list`: one `add_strategy` call, whose
entry is in the registry and has a nonempty list. -/
theorem registry_never_empty_list_witness :
    ("BTC/USD", [({ id := 1, stype := "Supertrend" } : StratInfo)])
        ∈ applyOps [RegOp.add "BTC/USD" { id := 1, stype := "Supertrend" }]
    ∧ (("BTC/USD", [({ id := 1, stype := "Supertrend" } : StratInfo)]) :
        String × List StratInfo).2 ≠ [] := by
  have hmem : ("BTC/USD", [({ id := 1, stype := "Supertrend" } : StratInfo)])
      ∈ applyOps [RegOp.add "BTC/USD" { id := 1, stype := "Supertrend" }] := by
    simp [applyOps, applyOp, addStrategy]
  exact ⟨hmem, registry_never_empty_list _ _ hmem⟩

/-! ## RSI (utils/indicators.py:14-22 and macd_strategy.py:46-57)

`delta = data.diff()`, gains/losses clipped at 0, rolling means over `period`,
`rsi = 100 - 100/(1 + gain/loss)`.  `delta.where(delta > 0, 0)` replaces every
position where the condition is false — including the initial NaN delta, for
which `NaN > 0` is false — by 0, so the gain/loss series contain no NaN and
`rolling(period).mean()` is already defined at index `period - 1`;
`gain/loss` with zero loss is pandas `+inf` (so rsi saturates at exactly 100)
when the gain is positive, and NaN when the window is all-zero.  Undefined
values are modelled as `none`.
-/

/-- `data.diff()` at index `i`.  At `i = 0` the truncated subtraction yields
`xs[0] - xs[0] = 0`, which is exactly the value the `where(…, 0)` coercion
gives the clipped gain/loss series in place of the NaN first delta. -/
def deltaAt (xs : List ℚ) (i : ℕ) : ℚ :=
  xs.getD i 0 - xs.getD (i - 1) 0

/-- `delta.where(delta > 0, 0)` at index `i`. -/
def gainAt (xs : List ℚ) (i : ℕ) : ℚ :=
  max (deltaAt xs i) 0

/-- `-delta.where(delta < 0, 0)` at index `i`. -/
def lossAt (xs : List ℚ) (i : ℕ) : ℚ :=
  max (-(deltaAt xs i)) 0

/-- Rolling mean of the clipped gains over the `period`-wide window ending at `i`. -/
def avgGain (xs : List ℚ) (period i : ℕ) : ℚ :=
  ((Finset.range period).sum fun j => gainAt xs (i - j)) / period

/-- Rolling mean of the clipped losses over the `period`-wide window ending at `i`. -/
def avgLoss (xs : List ℚ) (period i : ℕ) : ℚ :=
  ((Finset.range period).sum fun j => lossAt xs (i - j)) / period

/-- `calculate_rsi` at index `i`: `100 - 100/(1 + gain/loss)`, with pandas
NaN/inf edge semantics made explicit.  The rolling mean — and hence RSI — is
defined from index `period - 1` on, because the coerced gain/loss series
have no NaN. -/
def rsiAt (xs : List ℚ) (period i : ℕ) : Option ℚ :=
  if i + 1 < period ∨ xs.length ≤ i then none
  else
    let g := avgGain xs period i
    let l := avgLoss xs period i
    if l = 0 then (if g = 0 then none else some 100)
    else some (100 - 100 / (1 + g / l))

theorem avgGain_nonneg (xs : List ℚ) (period i : ℕ) : 0 ≤ avgGain xs period i := by
  unfold avgGain
  apply div_nonneg
  · exact Finset.sum_nonneg fun j _ => le_max_right _ _
  · exact Nat.cast_nonneg _

theorem avgLoss_nonneg (xs : List ℚ) (period i : ℕ) : 0 ≤ avgLoss xs period i := by
  unfold avgLoss
  apply div_nonneg
  · exact Finset.sum_nonneg fun j _ => le_max_right _ _
  · exact Nat.cast_nonneg _

/-- C6: at every index where the rolling window is defined, if some delta in
the window is nonzero then RSI is a defined value in [0,100], and it equals
exactly 100 whenever the average loss is 0. -/
theorem rsi_in_bounds (xs : List ℚ) (period i : ℕ) (hp : 1 ≤ period)
    (hip : period ≤ i + 1) (hil : i < xs.length)
    (hnz : ∃ j ∈ Finset.range period, deltaAt xs (i - j) ≠ 0) :
    ∃ v, rsiAt xs period i = some v ∧ 0 ≤ v ∧ v ≤ 100
      ∧ (avgLoss xs period i = 0 → v = 100) := by
  have hguard : ¬(i + 1 < period ∨ xs.length ≤ i) := by
    push_neg
    exact ⟨hip, hil⟩
  have hpq : (0 : ℚ) < period := by
    exact_mod_cast Nat.lt_of_lt_of_le Nat.zero_lt_one hp
  unfold rsiAt
  simp only [hguard, if_false]
  by_cases hl : avgLoss xs period i = 0
  · have hsum : ((Finset.range period).sum fun j => lossAt xs (i - j)) = 0 := by
      unfold avgLoss at hl
      rcases div_eq_zero_iff.mp hl with h | h
      · exact h
      · exact absurd h (ne_of_gt hpq)
    have hall : ∀ j ∈ Finset.range period, lossAt xs (i - j) = 0 :=
      (Finset.sum_eq_zero_iff_of_nonneg fun j _ => le_max_right _ _).mp hsum
    obtain ⟨j, hj, hdelta⟩ := hnz
    have hgpos : 0 < avgGain xs period i := by
      rcases lt_trichotomy (deltaAt xs (i - j)) 0 with hneg | hzero | hpos
      · exfalso
        have := hall j hj
        unfold lossAt at this
        rw [max_eq_left (by linarith)] at this
        linarith
      · exact absurd hzero hdelta
      · unfold avgGain
        apply div_pos _ hpq
        have h1 : 0 < gainAt xs (i - j) := by
          unfold gainAt
          rw [max_eq_left (by linarith)]
          exact hpos
        calc (0:ℚ) < gainAt xs (i - j) := h1
          _ ≤ (Finset.range period).sum fun k => gainAt xs (i - k) :=
            Finset.single_le_sum (f := fun k => gainAt xs (i - k))
              (fun k _ => le_max_right _ _) hj
    simp only [hl, if_true, ne_of_gt hgpos, if_false]
    exact ⟨100, rfl, by norm_num, by norm_num, fun _ => rfl⟩
  · simp only [hl, if_false]
    have hlpos : 0 < avgLoss xs period i := lt_of_le_of_ne (avgLoss_nonneg xs period i) (Ne.symm hl)
    have hg := avgGain_nonneg xs period i
    have hr : 0 ≤ avgGain xs period i / avgLoss xs period i := div_nonneg hg (le_of_lt hlpos)
    have h1 : (0:ℚ) < 1 + avgGain xs period i / avgLoss xs period i := by linarith
    have h2 : 100 / (1 + avgGain xs period i / avgLoss xs period i) ≤ 100 := by
      rw [div_le_iff₀ h1]
      nlinarith
    have h3 : 0 < 100 / (1 + avgGain xs period i / avgLoss xs period i) :=
      div_pos (by norm_num) h1
    refine ⟨_, rfl, by linarith, by linarith, ?_⟩
    intro habs
    exact habs.elim

/-- Witness for `rsi_in_bounds` on the rising series [1,2,3] with period 2 at
the boundary index `period - 1 = 1` (whose window still covers the coerced
first delta): RSI is defined and equals 100 (no losses in the window). -/
theorem rsi_in_bounds_witness :
    ∃ v, rsiAt [1, 2, 3] 2 1 = some v ∧ 0 ≤ v ∧ v ≤ 100
      ∧ (avgLoss [1, 2, 3] 2 1 = 0 → v = 100) := by
  apply rsi_in_bounds [1, 2, 3] 2 1 (by norm_num) (by norm_num) (by norm_num)
  exact ⟨0, by norm_num, by norm_num [deltaAt, List.getD]⟩

/-! ## Supertrend (utils/indicators.py:36-80)

True Range, Wilder-style `ewm(alpha=1/period, adjust=False)` ATR, basic bands
`hl2 ± multiplier·atr`, and the sequential direction/ratchet loop of
indicators.py:57-73.  Pandas `max(axis=1)` skips the NaN shifted entries, so
`tr[0] = high[0] - low[0]`.
-/

/-- True Range tail: `max(high-low, |high-prev_close|, |low-prev_close|)`. -/
def trAux : List ℚ → List ℚ → List ℚ → ℚ → List ℚ
  | h :: hs, l :: ls, c :: cs, cp =>
      max (h - l) (max |h - cp| |l - cp|) :: trAux hs ls cs c
  | _, _, _, _ => []

/-- The True Range series (indicators.py:43-47). -/
def trList (high low close : List ℚ) : List ℚ :=
  match high, low, close with
  | h :: hs, l :: ls, c :: cs => (h - l) :: trAux hs ls cs c
  | _, _, _ => []

/-- `ewm(alpha, adjust=False).mean()` tail recursion: `y = (1-α)·prev + α·x`. -/
def ewmAux (α : ℚ) : List ℚ → ℚ → List ℚ
  | [], _ => []
  | x :: xs, prev =>
      let y := (1 - α) * prev + α * x
      y :: ewmAux α xs y

/-- `series.ewm(alpha=α, adjust=False).mean()`: seeded with the first value. -/
def ewmRec (α : ℚ) : List ℚ → List ℚ
  | [] => []
  | x :: xs => x :: ewmAux α xs x

def zip3 : List α → List β → List γ → List (α × β × γ)
  | a :: as, b :: bs, c :: cs => (a, b, c) :: zip3 as bs cs
  | _, _, _ => []

/-- The per-bar state of the sequential Supertrend loop: direction, the
(ratcheted) upper and lower bands, and the selected line. -/
structure STState where
  dir : Int
  ub : ℚ
  lb : ℚ
  st : ℚ
deriving DecidableEq, Repr

/-- One iteration of indicators.py:57-73: direction from the close vs the
previous (ratcheted) bands, then the band ratchet, then the line selection. -/
def stStep (c ubB lbB : ℚ) (s : STState) : STState :=
  let d : Int := if c > s.ub then 1 else if c < s.lb then -1 else s.dir
  let lb' := if d = 1 ∧ lbB < s.lb then s.lb else lbB
  let ub' := if d = -1 ∧ ubB > s.ub then s.ub else ubB
  { dir := d, ub := ub', lb := lb', st := if d = 1 then lb' else ub' }

/-- The states after each iteration `i = 1, …, n-1` of the loop. -/
def stIter : List (ℚ × ℚ × ℚ) → STState → List STState
  | [], _ => []
  | x :: xs, s =>
      let s' := stStep x.1 x.2.1 x.2.2 s
      s' :: stIter xs s'

/-- `calculate_supertrend` (indicators.py:36-73): the loop states for bars
1..n-1, starting from direction 1, the index-0 basic bands, and the never
assigned `supertrend[0] = 0.0`. -/
def stInput (high low close : List ℚ) (period : ℕ) (mult : ℚ) : List (ℚ × ℚ × ℚ) :=
  let atr := ewmRec (1 / (period : ℚ)) (trList high low close)
  let mid := List.zipWith (fun h l => (h + l) / 2) high low
  let ub := List.zipWith (fun m a => m + mult * a) mid atr
  let lb := List.zipWith (fun m a => m - mult * a) mid atr
  zip3 close ub lb

def supertrendStates (high low close : List ℚ) (period : ℕ) (mult : ℚ) : List STState :=
  match stInput high low close period mult with
  | [] => []
  | x :: rest => stIter rest ⟨1, x.2.1, x.2.2, 0⟩

/-- The `direction` series returned by `calculate_supertrend`. -/
def calculate_supertrend_direction (high low close : List ℚ) (period : ℕ) (mult : ℚ) : List Int :=
  match close with
  | [] => []
  | _ :: _ => 1 :: (supertrendStates high low close period mult).map (fun s => s.dir)

/-- The `supertrend` series returned by `calculate_supertrend` (`0.0` at index
0, which the loop never assigns). -/
def calculate_supertrend_line (high low close : List ℚ) (period : ℕ) (mult : ℚ) : List ℚ :=
  match close with
  | [] => []
  | _ :: _ => 0 :: (supertrendStates high low close period mult).map (fun s => s.st)

theorem stStep_selected (c ubB lbB : ℚ) (s : STState) :
    (stStep c ubB lbB s).st
      = if (stStep c ubB lbB s).dir = 1 then (stStep c ubB lbB s).lb
        else (stStep c ubB lbB s).ub := rfl

/-- The per-step ratchet: from a state whose line is its active band, an
up-to-up step never lowers the selected line and a down-to-down step never
raises it. -/
theorem stStep_ratchet (c ubB lbB : ℚ) (a : STState)
    (ha : a.st = if a.dir = 1 then a.lb else a.ub) :
    (a.dir = 1 → (stStep c ubB lbB a).dir = 1 → a.st ≤ (stStep c ubB lbB a).st)
    ∧ (a.dir = -1 → (stStep c ubB lbB a).dir = -1 → (stStep c ubB lbB a).st ≤ a.st) := by
  constructor
  · intro had hbd
    rw [stStep_selected, hbd, if_pos rfl]
    show a.st ≤ (if (stStep c ubB lbB a).dir = 1 ∧ lbB < a.lb then a.lb else lbB)
    rw [ha, if_pos had]
    by_cases hc : (stStep c ubB lbB a).dir = 1 ∧ lbB < a.lb
    · rw [if_pos hc]
    · rw [if_neg hc]
      rcases not_and_or.mp hc with h | h
      · exact absurd hbd h
      · linarith [not_lt.mp h]
  · intro had hbd
    have hne : ¬((stStep c ubB lbB a).dir = 1) := by
      rw [hbd]; decide
    rw [stStep_selected, if_neg hne]
    show (if (stStep c ubB lbB a).dir = -1 ∧ ubB > a.ub then a.ub else ubB) ≤ a.st
    have hsta : a.st = a.ub := by
      rw [ha, if_neg (by rw [had]; decide)]
    rw [hsta]
    by_cases hc : (stStep c ubB lbB a).dir = -1 ∧ ubB > a.ub
    · rw [if_pos hc]
    · rw [if_neg hc]
      rcases not_and_or.mp hc with h | h
      · exact absurd hbd h
      · linarith [not_lt.mp h]

/-- Every state in the iterated loop has its line equal to its active band. -/
theorem stIter_selected : ∀ (xs : List (ℚ × ℚ × ℚ)) (s : STState) (j : ℕ) (a : STState),
    (stIter xs s).get? j = some a → a.st = if a.dir = 1 then a.lb else a.ub := by
  intro xs
  induction xs with
  | nil => intro s j a h; simp [stIter] at h
  | cons x xs ih =>
    intro s j a h
    cases j with
    | zero =>
      simp only [stIter, List.get?] at h
      cases h
      exact stStep_selected x.1 x.2.1 x.2.2 s
    | succ j =>
      simp only [stIter, List.get?] at h
      exact ih _ j a h

/-- Consecutive states of the loop are related by one `stStep`. -/
theorem stIter_chain : ∀ (xs : List (ℚ × ℚ × ℚ)) (s : STState) (j : ℕ) (a b : STState),
    (stIter xs s).get? j = some a → (stIter xs s).get? (j + 1) = some b →
    ∃ x : ℚ × ℚ × ℚ, b = stStep x.1 x.2.1 x.2.2 a := by
  intro xs
  induction xs with
  | nil => intro s j a b h _; simp [stIter] at h
  | cons x xs ih =>
    intro s j a b ha hb
    cases j with
    | zero =>
      simp only [stIter, List.get?] at ha hb
      cases ha
      cases xs with
      | nil => simp [stIter] at hb
      | cons y ys =>
        simp only [stIter, List.get?] at hb
        cases hb
        exact ⟨y, rfl⟩
    | succ j =>
      simp only [stIter, List.get?] at ha hb
      exact ih _ j a b ha hb

/-- Combined per-index ratchet for any run of the loop. -/
theorem stIter_ratchet (xs : List (ℚ × ℚ × ℚ)) (s : STState) (j : ℕ) (a b : STState)
    (ha : (stIter xs s).get? j = some a) (hb : (stIter xs s).get? (j + 1) = some b) :
    (a.dir = 1 → b.dir = 1 → a.st ≤ b.st) ∧ (a.dir = -1 → b.dir = -1 → b.st ≤ a.st) := by
  obtain ⟨x, rfl⟩ := stIter_chain xs s j a b ha hb
  exact stStep_ratchet x.1 x.2.1 x.2.2 a (stIter_selected xs s j a ha)


/-- `supertrendStates` is either empty or one run of the loop. -/
theorem supertrendStates_shape (high low close : List ℚ) (period : ℕ) (mult : ℚ) :
    supertrendStates high low close period mult = []
    ∨ ∃ (xs : List (ℚ × ℚ × ℚ)) (s : STState),
        supertrendStates high low close period mult = stIter xs s := by
  unfold supertrendStates
  cases hz : stInput high low close period mult with
  | nil => left; rfl
  | cons x rest =>
    right
    exact ⟨rest, ⟨1, x.2.1, x.2.2, 0⟩, rfl⟩

/-- C1 (amended): in `calculate_supertrend`, for any two consecutive bars
`i, i+1` with `i ≥ 1` inside an up-direction run (direction +1 at both bars),
the selected line (the ratcheted lower band) is non-decreasing, and
symmetrically it is non-increasing inside a down-direction run. -/
theorem supertrend_ratchet (high low close : List ℚ) (period : ℕ) (mult : ℚ)
    (i : ℕ) (hi : 1 ≤ i) (d d' : Int) (v v' : ℚ)
    (hd : (calculate_supertrend_direction high low close period mult).get? i = some d)
    (hd' : (calculate_supertrend_direction high low close period mult).get? (i + 1) = some d')
    (hv : (calculate_supertrend_line high low close period mult).get? i = some v)
    (hv' : (calculate_supertrend_line high low close period mult).get? (i + 1) = some v') :
    (d = 1 → d' = 1 → v ≤ v') ∧ (d = -1 → d' = -1 → v' ≤ v) := by
  obtain ⟨j, rfl⟩ : ∃ j, i = j + 1 := ⟨i - 1, (Nat.succ_pred_eq_of_pos hi).symm⟩
  cases hc : close with
  | nil =>
    rw [hc] at hd
    simp [calculate_supertrend_direction] at hd
  | cons c cs =>
    rw [hc] at hd hd' hv hv'
    simp only [calculate_supertrend_direction, calculate_supertrend_line,
      List.get?_cons_succ, List.get?_map] at hd hd' hv hv'
    obtain ⟨a, ha, hva⟩ := Option.map_eq_some'.mp hv
    obtain ⟨b, hb, hvb⟩ := Option.map_eq_some'.mp hv'
    rw [ha, Option.map_some'] at hd
    rw [hb, Option.map_some'] at hd'
    have hda : a.dir = d := Option.some.inj hd
    have hdb : b.dir = d' := Option.some.inj hd'
    rcases supertrendStates_shape high low (c :: cs) period mult with hsh | ⟨xs, s0, hsh⟩
    · rw [hsh] at ha
      simp at ha
    · rw [hsh] at ha hb
      have key := stIter_ratchet xs s0 j a b ha hb
      constructor
      · intro h1 h1'
        rw [← hva, ← hvb]
        exact key.1 (hda.trans h1) (hdb.trans h1')
      · intro h1 h1'
        rw [← hva, ← hvb]
        exact key.2 (hda.trans h1) (hdb.trans h1')

/-! ## The duplicate Supertrend inside `calculate_indicators`
(utils/indicators.py:176-204)

This second implementation selects the *basic* bands directly — it has no
ratchet step — and seeds `supertrend_direction = 0`.  Its ATR comes from the
external `ta` library, which is not part of this repository's sources.
-/

/-- Modelled from the spec: the external `ta.volatility.average_true_range`
call of indicators.py:178 — "ATR(bars, period): rolling mean (or exponential
mean) of True Range = max(high−low, |high−prev_close|, |low−prev_close|)".
Indices whose window is not yet full are undefined; they are returned as 0
here and never relied upon below. -/
def atrRollingAt (high low close : List ℚ) (period i : ℕ) : ℚ :=
  if i + 1 < period then 0
  else ((Finset.range period).sum fun j => (trList high low close).getD (i - j) 0) / period

/-- indicators.py:185 — `basic_upper = hl2 + multiplier * atr`. -/
def ciUpperband (high low close : List ℚ) (period : ℕ) (mult : ℚ) (i : ℕ) : ℚ :=
  (high.getD i 0 + low.getD i 0) / 2 + mult * atrRollingAt high low close period i

/-- indicators.py:186 — `basic_lower = hl2 - multiplier * atr`. -/
def ciLowerband (high low close : List ℚ) (period : ℕ) (mult : ℚ) (i : ℕ) : ℚ :=
  (high.getD i 0 + low.getD i 0) / 2 - mult * atrRollingAt high low close period i

/-- indicators.py:190,193-199 — the `supertrend_direction` column: seeded 0,
then crossing the previous *basic* bands or carrying the previous direction. -/
def ciDirection (high low close : List ℚ) (period : ℕ) (mult : ℚ) : ℕ → Int
  | 0 => 0
  | i + 1 =>
      if close.getD (i + 1) 0 > ciUpperband high low close period mult i then 1
      else if close.getD (i + 1) 0 < ciLowerband high low close period mult i then -1
      else ciDirection high low close period mult i

/-- indicators.py:189,201-204 — the `supertrend` column: the basic lower band
when direction is 1, otherwise the basic upper band (no ratchet). -/
def ciSupertrend (high low close : List ℚ) (period : ℕ) (mult : ℚ) (i : ℕ) : ℚ :=
  if i = 0 then 0
  else if ciDirection high low close period mult i = 1 then
    ciLowerband high low close period mult i
  else ciUpperband high low close period mult i

/-- C1 counterexample: on bars (h,l,c) = (10,10,10), (30,30,30), (42,18,30)
with period 1 and multiplier 1, the `calculate_indicators` Supertrend has
direction +1 at bars 1 and 2 but its selected lower band *decreases* from 10
to 6 — the claim's ratchet property fails for this cited Supertrend
computation. -/
theorem supertrend_indicators_no_ratchet :
    ciDirection [10, 30, 42] [10, 30, 18] [10, 30, 30] 1 1 1 = 1
    ∧ ciDirection [10, 30, 42] [10, 30, 18] [10, 30, 30] 1 1 2 = 1
    ∧ ciSupertrend [10, 30, 42] [10, 30, 18] [10, 30, 30] 1 1 1 = 10
    ∧ ciSupertrend [10, 30, 42] [10, 30, 18] [10, 30, 30] 1 1 2 = 6
    ∧ ciSupertrend [10, 30, 42] [10, 30, 18] [10, 30, 30] 1 1 2
        < ciSupertrend [10, 30, 42] [10, 30, 18] [10, 30, 30] 1 1 1 := by
  have h1 : ciDirection [10, 30, 42] [10, 30, 18] [10, 30, 30] 1 1 1 = 1 := by
    norm_num [ciDirection, ciUpperband, ciLowerband, atrRollingAt, trList, trAux,
      List.getD, Finset.sum_range_succ]
  have h2 : ciDirection [10, 30, 42] [10, 30, 18] [10, 30, 30] 1 1 2 = 1 := by
    norm_num [ciDirection, ciUpperband, ciLowerband, atrRollingAt, trList, trAux,
      List.getD, Finset.sum_range_succ]
  have h3 : ciSupertrend [10, 30, 42] [10, 30, 18] [10, 30, 30] 1 1 1 = 10 := by
    norm_num [ciSupertrend, h1, ciLowerband, atrRollingAt, trList, trAux,
      List.getD, Finset.sum_range_succ]
  have h4 : ciSupertrend [10, 30, 42] [10, 30, 18] [10, 30, 30] 1 1 2 = 6 := by
    norm_num [ciSupertrend, h2, ciLowerband, atrRollingAt, trList, trAux,
      List.getD, Finset.sum_range_succ]
  exact ⟨h1, h2, h3, h4, by rw [h3, h4]; norm_num⟩

/-- Witness for `supertrend_ratchet`: on four constant bars (10,10,10) with
period 1 and multiplier 3 the direction is +1 at bars 1 and 2 and the line is
10 at both, so the theorem applies and both run-monotonicity conclusions hold. -/
theorem supertrend_ratchet_witness :
    ((1 : Int) = 1 → (1 : Int) = 1 → (10 : ℚ) ≤ 10)
    ∧ ((1 : Int) = -1 → (1 : Int) = -1 → (10 : ℚ) ≤ 10) := by
  have hd : (calculate_supertrend_direction [10, 10, 10, 10] [10, 10, 10, 10]
      [10, 10, 10, 10] 1 3).get? 1 = some 1 := by
    norm_num [calculate_supertrend_direction, supertrendStates, stInput, trList,
      trAux, ewmRec, ewmAux, zip3, stIter, stStep, List.get?]
  have hd' : (calculate_supertrend_direction [10, 10, 10, 10] [10, 10, 10, 10]
      [10, 10, 10, 10] 1 3).get? 2 = some 1 := by
    norm_num [calculate_supertrend_direction, supertrendStates, stInput, trList,
      trAux, ewmRec, ewmAux, zip3, stIter, stStep, List.get?]
  have hv : (calculate_supertrend_line [10, 10, 10, 10] [10, 10, 10, 10]
      [10, 10, 10, 10] 1 3).get? 1 = some 10 := by
    norm_num [calculate_supertrend_line, supertrendStates, stInput, trList,
      trAux, ewmRec, ewmAux, zip3, stIter, stStep, List.get?]
  have hv' : (calculate_supertrend_line [10, 10, 10, 10] [10, 10, 10, 10]
      [10, 10, 10, 10] 1 3).get? 2 = some 10 := by
    norm_num [calculate_supertrend_line, supertrendStates, stInput, trList,
      trAux, ewmRec, ewmAux, zip3, stIter, stStep, List.get?]
  exact supertrend_ratchet [10, 10, 10, 10] [10, 10, 10, 10] [10, 10, 10, 10]
    1 3 1 (by norm_num) 1 1 10 10 hd hd' hv hv'

/-! ## MACD strategy (strategies/macd_strategy.py)

`calculate_ema` is pandas `ewm(span=period, adjust=False)`, i.e. the recursive
EMA with α = 2/(period+1); MACD line, signal line and histogram follow
macd_strategy.py:25-44, RSI reuses the rolling formula above, and
`generate_signals` is macd_strategy.py:59-100.
-/

/-- `data.ewm(span=period, adjust=False).mean()` (macd_strategy.py:21-23). -/
def calculate_ema (period : ℕ) (xs : List ℚ) : List ℚ :=
  ewmRec (2 / ((period : ℚ) + 1)) xs

/-- `macd_line = fast_ema - slow_ema` (macd_strategy.py:30-32). -/
def macdLineList (fast slow : ℕ) (xs : List ℚ) : List ℚ :=
  List.zipWith (fun a b => a - b) (calculate_ema fast xs) (calculate_ema slow xs)

/-- `signal_line = EMA(macd_line, signal)` (macd_strategy.py:35). -/
def signalLineList (fast slow sig : ℕ) (xs : List ℚ) : List ℚ :=
  calculate_ema sig (macdLineList fast slow xs)

/-- `histogram = macd_line - signal_line` (macd_strategy.py:38). -/
def histogramList (fast slow sig : ℕ) (xs : List ℚ) : List ℚ :=
  List.zipWith (fun a b => a - b) (macdLineList fast slow xs) (signalLineList fast slow sig xs)

/-- The MACD strategy's constructor parameters. -/
structure MACDParams where
  macd_fast : ℕ
  macd_slow : ℕ
  macd_signal : ℕ
  rsi_period : ℕ
deriving DecidableEq, Repr

/-- The discrete trading signal. -/
inductive Signal where
  | BUY
  | SELL
  | HOLD
deriving DecidableEq, Repr

/-- The dict returned by `MACDStrategy.generate_signals`; the indicator fields
are `Option` because the short-history branch returns them as `None`. -/
structure MACDSignalResult where
  signal : Signal
  macd : Option ℚ
  signal_line : Option ℚ
  histogram : Option ℚ
  rsi : Option ℚ
  close : Option ℚ
deriving DecidableEq, Repr


/-- macd_strategy.py:86-88 — the BUY branch's RSI confirmation
(`if current_rsi < 70`, with pandas NaN comparing false). -/
def buyGate (r? : Option ℚ) : Signal :=
  match r? with
  | some r => if r < 70 then .BUY else .HOLD
  | none => .HOLD

/-- macd_strategy.py:89-91 — the SELL branch's RSI confirmation
(`if current_rsi > 30`, with pandas NaN comparing false). -/
def sellGate (r? : Option ℚ) : Signal :=
  match r? with
  | some r => if r > 30 then .SELL else .HOLD
  | none => .HOLD

theorem buyGate_eq_buy (r? : Option ℚ) :
    buyGate r? = .BUY ↔ ∃ r, r? = some r ∧ r < 70 := by
  cases r? with
  | none => simp [buyGate]
  | some r => by_cases h : r < 70 <;> simp [buyGate, h]

theorem buyGate_ne_sell (r? : Option ℚ) : buyGate r? ≠ .SELL := by
  cases r? with
  | none => simp [buyGate]
  | some r => by_cases h : r < 70 <;> simp [buyGate, h]

theorem buyGate_eq_hold (r? : Option ℚ) (h : buyGate r? ≠ .BUY) : buyGate r? = .HOLD := by
  cases r? with
  | none => simp [buyGate]
  | some r =>
    by_cases h70 : r < 70
    · simp [buyGate, h70] at h
    · simp [buyGate, h70]

theorem sellGate_eq_sell (r? : Option ℚ) :
    sellGate r? = .SELL ↔ ∃ r, r? = some r ∧ r > 30 := by
  cases r? with
  | none => simp [sellGate]
  | some r => by_cases h : r > 30 <;> simp [sellGate, h]

theorem sellGate_ne_buy (r? : Option ℚ) : sellGate r? ≠ .BUY := by
  cases r? with
  | none => simp [sellGate]
  | some r => by_cases h : r > 30 <;> simp [sellGate, h]

theorem sellGate_eq_hold (r? : Option ℚ) (h : sellGate r? ≠ .SELL) : sellGate r? = .HOLD := by
  cases r? with
  | none => simp [sellGate]
  | some r =>
    by_cases h30 : r > 30
    · simp [sellGate, h30] at h
    · simp [sellGate, h30]

/-- macd_strategy.py:59-100 — `generate_signals`. -/
def macdGenerateSignals (p : MACDParams) (closes : List ℚ) : MACDSignalResult :=
  if closes.length < max p.macd_slow p.rsi_period then
    { signal := .HOLD, macd := none, signal_line := none, histogram := none,
      rsi := none, close := closes.getLast? }
  else
    let n := closes.length
    let hist := histogramList p.macd_fast p.macd_slow p.macd_signal closes
    let current_macd := (macdLineList p.macd_fast p.macd_slow closes).getD (n - 1) 0
    let current_signal := (signalLineList p.macd_fast p.macd_slow p.macd_signal closes).getD (n - 1) 0
    let current_hist := hist.getD (n - 1) 0
    let prev_hist := if 1 < n then hist.getD (n - 2) 0 else 0
    let current_rsi := rsiAt closes p.rsi_period (n - 1)
    let sig : Signal :=
      if current_hist > 0 ∧ current_hist > prev_hist then buyGate current_rsi
      else if current_hist < 0 ∧ current_hist < prev_hist then sellGate current_rsi
      else .HOLD
    { signal := sig, macd := some current_macd, signal_line := some current_signal,
      histogram := some current_hist, rsi := current_rsi, close := closes.getLast? }

/-- C5: `MACDStrategy.generate_signals` returns HOLD with all indicator fields
null on fewer than `max(slow_period, rsi_period)` bars; otherwise it returns
BUY exactly when the histogram is positive and strictly above the previous
bar's and the RSI value is defined and < 70, SELL exactly when the histogram is
negative and strictly below the previous bar's and the RSI value is defined and
above 30, and HOLD in every other case. -/
theorem macd_generate_signals_spec (p : MACDParams) (closes : List ℚ) :
    (closes.length < max p.macd_slow p.rsi_period →
      (macdGenerateSignals p closes).signal = .HOLD
      ∧ (macdGenerateSignals p closes).macd = none
      ∧ (macdGenerateSignals p closes).signal_line = none
      ∧ (macdGenerateSignals p closes).histogram = none
      ∧ (macdGenerateSignals p closes).rsi = none)
    ∧ (max p.macd_slow p.rsi_period ≤ closes.length →
      (((macdGenerateSignals p closes).signal = .BUY ↔
          (histogramList p.macd_fast p.macd_slow p.macd_signal closes).getD (closes.length - 1) 0 > 0
          ∧ (histogramList p.macd_fast p.macd_slow p.macd_signal closes).getD (closes.length - 1) 0
            > (if 1 < closes.length then
                (histogramList p.macd_fast p.macd_slow p.macd_signal closes).getD (closes.length - 2) 0
              else 0)
          ∧ ∃ r, rsiAt closes p.rsi_period (closes.length - 1) = some r ∧ r < 70)
      ∧ ((macdGenerateSignals p closes).signal = .SELL ↔
          (histogramList p.macd_fast p.macd_slow p.macd_signal closes).getD (closes.length - 1) 0 < 0
          ∧ (histogramList p.macd_fast p.macd_slow p.macd_signal closes).getD (closes.length - 1) 0
            < (if 1 < closes.length then
                (histogramList p.macd_fast p.macd_slow p.macd_signal closes).getD (closes.length - 2) 0
              else 0)
          ∧ ∃ r, rsiAt closes p.rsi_period (closes.length - 1) = some r ∧ r > 30)
      ∧ ((macdGenerateSignals p closes).signal ≠ .BUY →
          (macdGenerateSignals p closes).signal ≠ .SELL →
          (macdGenerateSignals p closes).signal = .HOLD))) := by
  constructor
  · intro hlen
    unfold macdGenerateSignals
    rw [if_pos hlen]
    exact ⟨rfl, rfl, rfl, rfl, rfl⟩
  · intro hlen
    have hneg : ¬(closes.length < max p.macd_slow p.rsi_period) := not_lt.mpr hlen
    unfold macdGenerateSignals
    rw [if_neg hneg]
    simp only []
    set ch := (histogramList p.macd_fast p.macd_slow p.macd_signal closes).getD (closes.length - 1) 0 with hch
    set ph := (if 1 < closes.length then
        (histogramList p.macd_fast p.macd_slow p.macd_signal closes).getD (closes.length - 2) 0
      else 0) with hph
    set r? := rsiAt closes p.rsi_period (closes.length - 1) with hr
    by_cases hb : ch > 0 ∧ ch > ph
    · rw [if_pos hb]
      refine ⟨?_, ?_, ?_⟩
      · rw [buyGate_eq_buy]
        constructor
        · intro hx; exact ⟨hb.1, hb.2, hx⟩
        · rintro ⟨_, _, hx⟩; exact hx
      · constructor
        · intro hx; exact absurd hx (buyGate_ne_sell r?)
        · rintro ⟨h1, _, _⟩
          exact absurd (lt_trans h1 hb.1) (lt_irrefl ch)
      · intro hnb _
        exact buyGate_eq_hold r? hnb
    · rw [if_neg hb]
      by_cases hs : ch < 0 ∧ ch < ph
      · rw [if_pos hs]
        refine ⟨?_, ?_, ?_⟩
        · constructor
          · intro hx; exact absurd hx (sellGate_ne_buy r?)
          · rintro ⟨h1, h2, _⟩; exact absurd ⟨h1, h2⟩ hb
        · rw [sellGate_eq_sell]
          constructor
          · intro hx; exact ⟨hs.1, hs.2, hx⟩
          · rintro ⟨_, _, hx⟩; exact hx
        · intro _ hns
          exact sellGate_eq_hold r? hns
      · rw [if_neg hs]
        refine ⟨?_, ?_, fun _ _ => rfl⟩
        · constructor
          · intro hx; exact absurd hx (by decide)
          · rintro ⟨h1, h2, _⟩; exact absurd ⟨h1, h2⟩ hb
        · constructor
          · intro hx; exact absurd hx (by decide)
          · rintro ⟨h1, h2, _⟩; exact absurd ⟨h1, h2⟩ hs

/-- Boundary-definedness check: with one bar beyond the RSI window's start
(`closes = [4,1,7]`, fast 1, slow 3, signal 2, rsi_period 3, so the series
length equals `rsi_period`), the RSI at the last index is already defined —
the coerced first delta sits in its window — and the strategy returns BUY
(histogram 13/12 > −1/2 > 0 is rising, RSI = 200/3 < 70). -/
theorem macd_rsi_boundary_example :
    rsiAt [4, 1, 7] 3 2 = some (200/3)
    ∧ (macdGenerateSignals ⟨1, 3, 2, 3⟩ [4, 1, 7]).signal = .BUY := by
  have hrsi : rsiAt [4, 1, 7] 3 2 = some (200/3) := by
    unfold rsiAt
    rw [if_neg (by norm_num)]
    have hg : avgGain [4, 1, 7] 3 2 = 2 := by
      norm_num [avgGain, gainAt, deltaAt, Finset.sum_range_succ, List.getD]
    have hl : avgLoss [4, 1, 7] 3 2 = 1 := by
      norm_num [avgLoss, lossAt, deltaAt, Finset.sum_range_succ, List.getD]
    rw [hg, hl]
    norm_num
  refine ⟨hrsi, ?_⟩
  have hhist : histogramList 1 3 2 [4, 1, 7] = [0, -1/2, 13/12] := by
    norm_num [histogramList, macdLineList, signalLineList, calculate_ema, ewmRec, ewmAux]
  unfold macdGenerateSignals
  rw [if_neg (by norm_num)]
  simp only [hhist, hrsi]
  norm_num [buyGate, List.getD]
  rw [hrsi]
  norm_num

/-- Witness for `macd_generate_signals_spec`, which is also the spec's
scenario: the default MACD strategy (12/26/9, RSI 14) fed 3 < 26 bars returns
HOLD with all indicator fields null. -/
theorem macd_generate_signals_witness :
    (macdGenerateSignals ⟨12, 26, 9, 14⟩ [1, 2, 3]).signal = .HOLD
    ∧ (macdGenerateSignals ⟨12, 26, 9, 14⟩ [1, 2, 3]).macd = none
    ∧ (macdGenerateSignals ⟨12, 26, 9, 14⟩ [1, 2, 3]).signal_line = none
    ∧ (macdGenerateSignals ⟨12, 26, 9, 14⟩ [1, 2, 3]).histogram = none
    ∧ (macdGenerateSignals ⟨12, 26, 9, 14⟩ [1, 2, 3]).rsi = none :=
  (macd_generate_signals_spec ⟨12, 26, 9, 14⟩ [1, 2, 3]).1 (by norm_num)

/-! ## Supertrend strategy (strategies/supertrend_strategy.py)

`generate_signals` (lines 137-221): dynamic multiplier adjustment from realized
volatility, its own sequential supertrend loop (lines 83-99, note: *not* the
indicators.py one), a consecutive-direction trend strength, a 20-bar volume
ratio, a one-hour cooldown, and the flip+confirmation signal rule.
-/

/-- `data['close'].pct_change()` without the leading NaN. -/
def pctChanges : List ℚ → List ℚ
  | c0 :: c1 :: rest => (c1 / c0 - 1) :: pctChanges (c1 :: rest)
  | _ => []

/-- Pandas sample variance (ddof = 1). -/
def sampleVar (rs : List ℚ) : ℚ :=
  let k : ℚ := rs.length
  let m := rs.sum / k
  (rs.map fun r => (r - m) ^ 2).sum / (k - 1)

/-- supertrend_strategy.py:47-58 — the dynamic multiplier: `volatility =
pct_change().std() * 100`; `vol > 3` ⟺ sample variance > 9/10000 and `vol < 1`
⟺ variance < 1/10000 (comparisons squared to stay in ℚ); with fewer than two
returns the std is NaN, both comparisons are false, and the `else` branch sets
the multiplier to 3.0. -/
def adjustedMultiplier (closes : List ℚ) (mult : ℚ) : ℚ :=
  let rets := pctChanges closes
  if 2 ≤ rets.length then
    if sampleVar rets > 9 / 10000 then max (7/2) mult
    else if sampleVar rets < 1 / 10000 then min (5/2) mult
    else 3
  else 3

/-- `tr.ewm(alpha=α).mean()` with the pandas default `adjust=True`: weighted
history with accumulators `num = x + (1-α)·num`, `den = 1 + (1-α)·den`. -/
def ewmAdjAux (α : ℚ) : List ℚ → ℚ → ℚ → List ℚ
  | [], _, _ => []
  | x :: xs, num, den =>
      let num' := x + (1 - α) * num
      let den' := 1 + (1 - α) * den
      num' / den' :: ewmAdjAux α xs num' den'

/-- `series.ewm(alpha=α).mean()` (adjust=True), supertrend_strategy.py:73. -/
def ewmAdj (α : ℚ) : List ℚ → List ℚ
  | [] => []
  | x :: rest => x :: ewmAdjAux α rest x 1

/-- Per-bar state of the strategy's own supertrend loop (line, direction). -/
structure SpState where
  st : ℚ
  dir : Int
deriving DecidableEq, Repr

/-- supertrend_strategy.py:88-99 — one iteration: previous close vs previous
line decides the direction, and the line is clamped against the previous line. -/
def spStep (cPrev ubI lbI : ℚ) (s : SpState) : SpState :=
  if cPrev ≤ s.st then
    { st := if lbI > s.st then s.st else lbI, dir := -1 }
  else
    { st := if ubI < s.st then s.st else ubI, dir := 1 }

def spIter : List (ℚ × ℚ × ℚ) → SpState → List SpState
  | [], _ => []
  | x :: xs, s =>
      let s' := spStep x.1 x.2.1 x.2.2 s
      s' :: spIter xs s'

/-- supertrend_strategy.py:62-99 — the full per-bar state series: index 0 is
seeded with `(upperband[0], 1)`; bar `i ≥ 1` consumes `(close[i-1],
upperband[i], lowerband[i])`. -/
def spStates (high low close : List ℚ) (atr_period : ℕ) (mult : ℚ) : List SpState :=
  let atr := ewmAdj (1 / (atr_period : ℚ)) (trList high low close)
  let mid := List.zipWith (fun h l => (h + l) / 2) high low
  let ub := List.zipWith (fun m a => m + mult * a) mid atr
  let lb := List.zipWith (fun m a => m - mult * a) mid atr
  match ub with
  | [] => []
  | u0 :: _ => ⟨u0, 1⟩ :: spIter (zip3 close (ub.drop 1) (lb.drop 1)) ⟨u0, 1⟩

/-- supertrend_strategy.py:110-114 — count consecutive same-direction bars
walking `j = i-1, i-2, …` down to (exclusive) `stop = max(0, i - atr_period)`. -/
def consecFrom (dirs : List Int) (d : Int) (stop : ℕ) (j : ℕ) : ℕ :=
  if j ≤ stop then 0
  else if dirs.getD j 0 = d then 1 + consecFrom dirs d stop (j - 1)
  else 0
termination_by j
decreasing_by
  rename_i h _
  omega

/-- supertrend_strategy.py:101-115 — trend strength at index `i`. -/
def trendStrengthAt (dirs : List Int) (trends_required atr_period i : ℕ) : ℕ :=
  if i < trends_required then 0
  else if i = 0 then 1
  else 1 + consecFrom dirs (dirs.getD i 0) (i - atr_period) (i - 1)

/-- supertrend_strategy.py:124-135,158 — the last bar's volume ratio: 1.0 when
fewer than 20 bars, else the last volume over the 20-bar rolling mean. -/
def volumeRatioLast (volumes : List ℚ) : ℚ :=
  if volumes.length < 20 then 1
  else volumes.getD (volumes.length - 1) 0
    / (((Finset.range 20).sum fun j => volumes.getD (volumes.length - 1 - j) 0) / 20)

/-- The Supertrend strategy's constructor parameters. -/
structure SupertrendParams where
  atr_period : ℕ
  multiplier : ℚ
  volume_threshold : ℚ
  trends_required : ℕ
deriving DecidableEq, Repr

/-- supertrend_strategy.py:160-162 — `last_signal_time` is falsy (`None`) or
within the one-hour (3600 s) cooldown of `current_time`. -/
def cooldownActive (last : Option ℚ) (now : ℚ) : Bool :=
  match last with
  | none => false
  | some t => decide (now - t < 3600)

/-- The last bar's direction in the strategy's supertrend series. -/
def stCurDirection (high low close : List ℚ) (p : SupertrendParams) : Int :=
  ((spStates high low close p.atr_period (adjustedMultiplier close p.multiplier)).map
    (fun s => s.dir)).getD (close.length - 1) 0

/-- The previous bar's direction in the strategy's supertrend series. -/
def stPrevDirection (high low close : List ℚ) (p : SupertrendParams) : Int :=
  ((spStates high low close p.atr_period (adjustedMultiplier close p.multiplier)).map
    (fun s => s.dir)).getD (close.length - 2) 0

/-- The last bar's trend strength in the strategy's supertrend series. -/
def stTrendStrength (high low close : List ℚ) (p : SupertrendParams) : ℕ :=
  trendStrengthAt
    ((spStates high low close p.atr_period (adjustedMultiplier close p.multiplier)).map
      (fun s => s.dir))
    p.trends_required p.atr_period (close.length - 1)

/-- The signal/confidence pair returned by the strategy (only the fields the
claims inspect). -/
structure StSignalResult where
  signal : Signal
  confidence : ℚ
deriving DecidableEq, Repr


/-- supertrend_strategy.py:137-221 — `generate_signals`: HOLD (confidence 0) on
short history, active cooldown, or a missing previous bar; otherwise BUY/SELL
on a direction flip with trend-strength and volume confirmation, with
confidence `min(1, (strength/10)·(ratio/threshold))`. -/
def stGenerateSignals (p : SupertrendParams) (high low close volume : List ℚ)
    (last : Option ℚ) (now : ℚ) : StSignalResult :=
  if close.length < p.atr_period then ⟨.HOLD, 0⟩
  else if cooldownActive last now then ⟨.HOLD, 0⟩
  else if 1 < close.length then
    if stCurDirection high low close p = 1 ∧ stPrevDirection high low close p = -1 then
      if p.trends_required ≤ stTrendStrength high low close p
          ∧ p.volume_threshold ≤ volumeRatioLast volume then
        ⟨.BUY, min 1 (((stTrendStrength high low close p : ℚ) / 10)
          * (volumeRatioLast volume / p.volume_threshold))⟩
      else ⟨.HOLD, 0⟩
    else if stCurDirection high low close p = -1 ∧ stPrevDirection high low close p = 1 then
      if p.trends_required ≤ stTrendStrength high low close p
          ∧ p.volume_threshold ≤ volumeRatioLast volume then
        ⟨.SELL, min 1 (((stTrendStrength high low close p : ℚ) / 10)
          * (volumeRatioLast volume / p.volume_threshold))⟩
      else ⟨.HOLD, 0⟩
    else ⟨.HOLD, 0⟩
  else ⟨.HOLD, 0⟩

/-- C4: for bar series long enough to evaluate (≥ atr_period and ≥ 2 bars) and
a positive volume threshold, the Supertrend strategy emits BUY (resp. SELL)
exactly when the cooldown is inactive, the direction flipped from −1 to +1
(resp. +1 to −1), the trend strength reaches `trends_required`, and the volume
ratio reaches `volume_threshold`; on such a signal the confidence equals
`clamp((strength/10)·(ratio/threshold), 0, 1)`, and in every other case the
result is HOLD with confidence 0. -/
theorem st_generate_signals_spec (p : SupertrendParams) (high low close volume : List ℚ)
    (last : Option ℚ) (now : ℚ) (hthresh : 0 < p.volume_threshold)
    (hlen : p.atr_period ≤ close.length) (h2 : 2 ≤ close.length) :
    ((stGenerateSignals p high low close volume last now).signal = .BUY ↔
      cooldownActive last now = false
      ∧ stCurDirection high low close p = 1
      ∧ stPrevDirection high low close p = -1
      ∧ p.trends_required ≤ stTrendStrength high low close p
      ∧ p.volume_threshold ≤ volumeRatioLast volume)
    ∧ ((stGenerateSignals p high low close volume last now).signal = .SELL ↔
      cooldownActive last now = false
      ∧ stCurDirection high low close p = -1
      ∧ stPrevDirection high low close p = 1
      ∧ p.trends_required ≤ stTrendStrength high low close p
      ∧ p.volume_threshold ≤ volumeRatioLast volume)
    ∧ ((stGenerateSignals p high low close volume last now).signal = .BUY
        ∨ (stGenerateSignals p high low close volume last now).signal = .SELL →
      (stGenerateSignals p high low close volume last now).confidence
        = max 0 (min 1 (((stTrendStrength high low close p : ℚ) / 10)
            * (volumeRatioLast volume / p.volume_threshold))))
    ∧ ((stGenerateSignals p high low close volume last now).signal ≠ .BUY →
        (stGenerateSignals p high low close volume last now).signal ≠ .SELL →
        (stGenerateSignals p high low close volume last now).signal = .HOLD
        ∧ (stGenerateSignals p high low close volume last now).confidence = 0) := by
  have hn : ¬(close.length < p.atr_period) := not_lt.mpr hlen
  have h1 : 1 < close.length := lt_of_lt_of_le one_lt_two h2
  unfold stGenerateSignals
  rw [if_neg hn]
  cases hcd : cooldownActive last now with
  | true =>
    rw [if_pos rfl]
    refine ⟨?_, ?_, ?_, ?_⟩
    · constructor
      · intro hx; exact Signal.noConfusion hx
      · rintro ⟨hfalse, _⟩; cases hfalse
    · constructor
      · intro hx; exact Signal.noConfusion hx
      · rintro ⟨hfalse, _⟩; cases hfalse
    · rintro (hx | hx) <;> exact Signal.noConfusion hx
    · intro _ _; exact ⟨rfl, rfl⟩
  | false =>
    rw [if_neg Bool.false_ne_true, if_pos h1]
    by_cases hflip : stCurDirection high low close p = 1 ∧ stPrevDirection high low close p = -1
    · rw [if_pos hflip]
      by_cases hconf : p.trends_required ≤ stTrendStrength high low close p
          ∧ p.volume_threshold ≤ volumeRatioLast volume
      · rw [if_pos hconf]
        have hx : (0:ℚ) ≤ ((stTrendStrength high low close p : ℚ) / 10)
            * (volumeRatioLast volume / p.volume_threshold) := by
          apply mul_nonneg
          · positivity
          · exact div_nonneg (le_trans (le_of_lt hthresh) hconf.2) (le_of_lt hthresh)
        have hmax : max (0:ℚ) (min 1 (((stTrendStrength high low close p : ℚ) / 10)
              * (volumeRatioLast volume / p.volume_threshold)))
            = min 1 (((stTrendStrength high low close p : ℚ) / 10)
              * (volumeRatioLast volume / p.volume_threshold)) :=
          max_eq_right (le_min (by norm_num) hx)
        refine ⟨?_, ?_, ?_, ?_⟩
        · exact ⟨fun _ => ⟨rfl, hflip.1, hflip.2, hconf.1, hconf.2⟩, fun _ => rfl⟩
        · constructor
          · intro hab; exact Signal.noConfusion hab
          · rintro ⟨_, hc, _⟩
            rw [hflip.1] at hc
            exact absurd hc (by decide)
        · intro _
          exact hmax.symm
        · intro hnb _
          exact absurd rfl hnb
      · rw [if_neg hconf]
        refine ⟨?_, ?_, ?_, fun _ _ => ⟨rfl, rfl⟩⟩
        · constructor
          · intro hab; exact Signal.noConfusion hab
          · rintro ⟨_, _, _, hc1, hc2⟩; exact absurd ⟨hc1, hc2⟩ hconf
        · constructor
          · intro hab; exact Signal.noConfusion hab
          · rintro ⟨_, hc, _⟩
            rw [hflip.1] at hc
            exact absurd hc (by decide)
        · rintro (hx | hx) <;> exact Signal.noConfusion hx
    · rw [if_neg hflip]
      by_cases hflip2 : stCurDirection high low close p = -1 ∧ stPrevDirection high low close p = 1
      · rw [if_pos hflip2]
        by_cases hconf : p.trends_required ≤ stTrendStrength high low close p
            ∧ p.volume_threshold ≤ volumeRatioLast volume
        · rw [if_pos hconf]
          have hx : (0:ℚ) ≤ ((stTrendStrength high low close p : ℚ) / 10)
              * (volumeRatioLast volume / p.volume_threshold) := by
            apply mul_nonneg
            · positivity
            · exact div_nonneg (le_trans (le_of_lt hthresh) hconf.2) (le_of_lt hthresh)
          have hmax : max (0:ℚ) (min 1 (((stTrendStrength high low close p : ℚ) / 10)
                * (volumeRatioLast volume / p.volume_threshold)))
              = min 1 (((stTrendStrength high low close p : ℚ) / 10)
                * (volumeRatioLast volume / p.volume_threshold)) :=
            max_eq_right (le_min (by norm_num) hx)
          refine ⟨?_, ?_, ?_, ?_⟩
          · constructor
            · intro hab; exact Signal.noConfusion hab
            · rintro ⟨_, hc, _⟩
              rw [hflip2.1] at hc
              exact absurd hc (by decide)
          · exact ⟨fun _ => ⟨rfl, hflip2.1, hflip2.2, hconf.1, hconf.2⟩, fun _ => rfl⟩
          · intro _
            exact hmax.symm
          · intro _ hns
            exact absurd rfl hns
        · rw [if_neg hconf]
          refine ⟨?_, ?_, ?_, fun _ _ => ⟨rfl, rfl⟩⟩
          · constructor
            · intro hab; exact Signal.noConfusion hab
            · rintro ⟨_, hc, _⟩
              rw [hflip2.1] at hc
              exact absurd hc (by decide)
          · constructor
            · intro hab; exact Signal.noConfusion hab
            · rintro ⟨_, _, _, hc1, hc2⟩; exact absurd ⟨hc1, hc2⟩ hconf
          · rintro (hx | hx) <;> exact Signal.noConfusion hx
      · rw [if_neg hflip2]
        refine ⟨?_, ?_, ?_, fun _ _ => ⟨rfl, rfl⟩⟩
        · constructor
          · intro hab; exact Signal.noConfusion hab
          · rintro ⟨_, hc1, hc2, _⟩; exact absurd ⟨hc1, hc2⟩ hflip
        · constructor
          · intro hab; exact Signal.noConfusion hab
          · rintro ⟨_, hc1, hc2, _⟩; exact absurd ⟨hc1, hc2⟩ hflip2
        · rintro (hx | hx) <;> exact Signal.noConfusion hx

/-- Witness for `st_generate_signals_spec` at the default parameters
(atr_period 2, multiplier 3, threshold 3/2, trends_required 2) on three
constant bars with no previous signal. -/
theorem st_generate_signals_witness :
    ((stGenerateSignals ⟨2, 3, 3/2, 2⟩ [10, 10, 10] [10, 10, 10] [10, 10, 10]
        [5, 5, 5] none 0).signal = .BUY ↔
      cooldownActive none 0 = false
      ∧ stCurDirection [10, 10, 10] [10, 10, 10] [10, 10, 10] ⟨2, 3, 3/2, 2⟩ = 1
      ∧ stPrevDirection [10, 10, 10] [10, 10, 10] [10, 10, 10] ⟨2, 3, 3/2, 2⟩ = -1
      ∧ 2 ≤ stTrendStrength [10, 10, 10] [10, 10, 10] [10, 10, 10] ⟨2, 3, 3/2, 2⟩
      ∧ (3/2 : ℚ) ≤ volumeRatioLast [5, 5, 5])
    ∧ ((stGenerateSignals ⟨2, 3, 3/2, 2⟩ [10, 10, 10] [10, 10, 10] [10, 10, 10]
        [5, 5, 5] none 0).signal = .SELL ↔
      cooldownActive none 0 = false
      ∧ stCurDirection [10, 10, 10] [10, 10, 10] [10, 10, 10] ⟨2, 3, 3/2, 2⟩ = -1
      ∧ stPrevDirection [10, 10, 10] [10, 10, 10] [10, 10, 10] ⟨2, 3, 3/2, 2⟩ = 1
      ∧ 2 ≤ stTrendStrength [10, 10, 10] [10, 10, 10] [10, 10, 10] ⟨2, 3, 3/2, 2⟩
      ∧ (3/2 : ℚ) ≤ volumeRatioLast [5, 5, 5])
    ∧ ((stGenerateSignals ⟨2, 3, 3/2, 2⟩ [10, 10, 10] [10, 10, 10] [10, 10, 10]
        [5, 5, 5] none 0).signal = .BUY
      ∨ (stGenerateSignals ⟨2, 3, 3/2, 2⟩ [10, 10, 10] [10, 10, 10] [10, 10, 10]
        [5, 5, 5] none 0).signal = .SELL →
      (stGenerateSignals ⟨2, 3, 3/2, 2⟩ [10, 10, 10] [10, 10, 10] [10, 10, 10]
        [5, 5, 5] none 0).confidence
        = max 0 (min 1 (((stTrendStrength [10, 10, 10] [10, 10, 10] [10, 10, 10]
            ⟨2, 3, 3/2, 2⟩ : ℚ) / 10) * (volumeRatioLast [5, 5, 5] / (3/2 : ℚ)))))
    ∧ ((stGenerateSignals ⟨2, 3, 3/2, 2⟩ [10, 10, 10] [10, 10, 10] [10, 10, 10]
        [5, 5, 5] none 0).signal ≠ .BUY →
      (stGenerateSignals ⟨2, 3, 3/2, 2⟩ [10, 10, 10] [10, 10, 10] [10, 10, 10]
        [5, 5, 5] none 0).signal ≠ .SELL →
      (stGenerateSignals ⟨2, 3, 3/2, 2⟩ [10, 10, 10] [10, 10, 10] [10, 10, 10]
        [5, 5, 5] none 0).signal = .HOLD
      ∧ (stGenerateSignals ⟨2, 3, 3/2, 2⟩ [10, 10, 10] [10, 10, 10] [10, 10, 10]
        [5, 5, 5] none 0).confidence = 0) :=
  st_generate_signals_spec ⟨2, 3, 3/2, 2⟩ [10, 10, 10] [10, 10, 10] [10, 10, 10]
    [5, 5, 5] none 0 (by norm_num) (by norm_num) (by norm_num)

/-! ## Per-symbol error isolation in `_trading_loop` (trading_engine.py:709-855)

`symbols_with_errors` is a dict from symbol to a consecutive-error count.  A
symbol with count ≥ 3 is skipped (line 789); a per-(symbol,strategy) error
increments the count (lines 829-836); a successfully *executed* BUY/SELL (a
truthy result) resets it to 0 (lines 815-826); any other evaluation outcome —
HOLD, an order call returning a falsy result, an inactive strategy — leaves the
dict untouched.  The per-strategy outcomes within a cycle are supplied by an
oracle, since they depend on external collaborators.
-/

/-- The observable outcome of evaluating one strategy for a symbol. -/
inductive EvalOutcome where
  | error
  | execSuccess
  | noAction
deriving DecidableEq, Repr

/-- `symbols_with_errors.get(symbol, 0)`. -/
def counterOf : List (String × ℕ) → String → ℕ
  | [], _ => 0
  | p :: ps, sym => if p.1 = sym then p.2 else counterOf ps sym

/-- `symbols_with_errors[symbol] = v`: update the key in place, or append it. -/
def setCounter : List (String × ℕ) → String → ℕ → List (String × ℕ)
  | [], sym, v => [(sym, v)]
  | p :: ps, sym, v => if p.1 = sym then (p.1, v) :: ps else p :: setCounter ps sym v

/-- trading_engine.py:795-832 — the inner per-strategy loop: each error
increments this symbol's counter, each executed order resets it to 0. -/
def processStrategies (sym : String) : List EvalOutcome → List (String × ℕ) → List (String × ℕ)
  | [], cs => cs
  | o :: os, cs =>
      match o with
      | .error => processStrategies sym os (setCounter cs sym (counterOf cs sym + 1))
      | .execSuccess => processStrategies sym os (setCounter cs sym 0)
      | .noAction => processStrategies sym os cs

/-- trading_engine.py:788-836 — one cycle over the symbols: a symbol whose
counter is ≥ 3 is skipped, every other symbol is evaluated.  Returns the new
counters and the list of symbols evaluated this cycle. -/
def cycleStep : List (String × List EvalOutcome) → List (String × ℕ) → List (String × ℕ) × List String
  | [], cs => (cs, [])
  | (sym, outs) :: rest, cs =>
      if 3 ≤ counterOf cs sym then cycleStep rest cs
      else
        let r := cycleStep rest (processStrategies sym outs cs)
        (r.1, sym :: r.2)

/-- Repeated cycles of the trading loop. -/
def runCycles : List (List (String × List EvalOutcome)) → List (String × ℕ) → List (String × ℕ)
  | [], cs => cs
  | cyc :: more, cs => runCycles more (cycleStep cyc cs).1

theorem counterOf_setCounter_ne (cs : List (String × ℕ)) (sym sym' : String) (v : ℕ)
    (h : sym' ≠ sym) : counterOf (setCounter cs sym v) sym' = counterOf cs sym' := by
  induction cs with
  | nil =>
    unfold setCounter counterOf
    rw [if_neg (fun hx => h hx.symm)]
    rfl
  | cons p ps ih =>
    unfold setCounter
    by_cases hp : p.1 = sym
    · rw [if_pos hp]
      unfold counterOf
      rw [if_neg (fun hx => h (hx.symm.trans hp)), if_neg (fun hx => h (hx.symm.trans hp))]
    · rw [if_neg hp]
      unfold counterOf
      by_cases hp' : p.1 = sym'
      · rw [if_pos hp', if_pos hp']
      · rw [if_neg hp', if_neg hp']
        exact ih

theorem counterOf_processStrategies_ne (sym sym' : String) (h : sym' ≠ sym)
    (outs : List EvalOutcome) (cs : List (String × ℕ)) :
    counterOf (processStrategies sym outs cs) sym' = counterOf cs sym' := by
  induction outs generalizing cs with
  | nil => rfl
  | cons o os ih =>
    cases o with
    | error =>
      unfold processStrategies
      rw [ih, counterOf_setCounter_ne _ _ _ _ h]
    | execSuccess =>
      unfold processStrategies
      rw [ih, counterOf_setCounter_ne _ _ _ _ h]
    | noAction =>
      unfold processStrategies
      rw [ih]

theorem processStrategies_no_mutation (sym : String) (outs : List EvalOutcome)
    (cs : List (String × ℕ)) (he : EvalOutcome.error ∉ outs)
    (hs : EvalOutcome.execSuccess ∉ outs) :
    processStrategies sym outs cs = cs := by
  induction outs with
  | nil => rfl
  | cons o os ih =>
    cases o with
    | error => exact absurd (List.mem_cons_self _ _) he
    | execSuccess => exact absurd (List.mem_cons_self _ _) hs
    | noAction =>
      unfold processStrategies
      exact ih (fun hx => he (List.mem_cons_of_mem _ hx))
        (fun hx => hs (List.mem_cons_of_mem _ hx))

theorem cycleStep_skipped (cyc : List (String × List EvalOutcome)) (cs : List (String × ℕ))
    (sym : String) (h3 : 3 ≤ counterOf cs sym) :
    sym ∉ (cycleStep cyc cs).2 ∧ counterOf (cycleStep cyc cs).1 sym = counterOf cs sym := by
  induction cyc generalizing cs with
  | nil => exact ⟨List.not_mem_nil sym, rfl⟩
  | cons hd rest ih =>
    obtain ⟨sym', outs⟩ := hd
    unfold cycleStep
    by_cases hsk : 3 ≤ counterOf cs sym'
    · rw [if_pos hsk]
      exact ih cs h3
    · rw [if_neg hsk]
      have hne : sym ≠ sym' := by
        intro hx
        rw [hx] at h3
        exact hsk h3
      have hpres : counterOf (processStrategies sym' outs cs) sym = counterOf cs sym :=
        counterOf_processStrategies_ne sym' sym hne outs cs
      have := ih (processStrategies sym' outs cs) (hpres ▸ h3)
      refine ⟨?_, by rw [this.2, hpres]⟩
      intro hmem
      rcases List.mem_cons.mp hmem with hx | hx
      · exact hne hx
      · exact this.1 hx

theorem cycleStep_evaluated (cyc : List (String × List EvalOutcome)) (cs : List (String × ℕ))
    (sym : String) (hlt : counterOf cs sym < 3) (hmem : sym ∈ cyc.map Prod.fst) :
    sym ∈ (cycleStep cyc cs).2 := by
  induction cyc generalizing cs with
  | nil => simp at hmem
  | cons hd rest ih =>
    obtain ⟨sym', outs⟩ := hd
    unfold cycleStep
    by_cases hsk : 3 ≤ counterOf cs sym'
    · rw [if_pos hsk]
      rcases List.mem_cons.mp hmem with hx | hx
      · exfalso
        rw [hx] at hlt
        exact absurd hsk (not_le.mpr hlt)
      · exact ih cs hlt hx
    · rw [if_neg hsk]
      by_cases hx : sym = sym'
      · exact List.mem_cons.mpr (Or.inl hx)
      · rcases List.mem_cons.mp hmem with hy | hy
        · exact absurd hy hx
        · have hpres : counterOf (processStrategies sym' outs cs) sym = counterOf cs sym :=
            counterOf_processStrategies_ne sym' sym hx outs cs
          exact List.mem_cons.mpr (Or.inr (ih _ (hpres ▸ hlt) hy))

theorem runCycles_skipped (cycles : List (List (String × List EvalOutcome)))
    (cs : List (String × ℕ)) (sym : String) (h3 : 3 ≤ counterOf cs sym) :
    counterOf (runCycles cycles cs) sym = counterOf cs sym := by
  induction cycles generalizing cs with
  | nil => rfl
  | cons cyc more ih =>
    unfold runCycles
    rw [ih _ ((cycleStep_skipped cyc cs sym h3).2.symm ▸ h3),
      (cycleStep_skipped cyc cs sym h3).2]

/-- C7 (amended): (a) a symbol whose consecutive-error counter has reached 3 is
skipped by the cycle and its counter is left unchanged — hence (b) it remains
at the threshold, and skipped, for every subsequent cycle (there is no reset
path for a skipped symbol); (c) any symbol with counter < 3 appearing in the
cycle is evaluated; (d) the counter only changes on a per-(symbol,strategy)
error (increment) or a successfully executed order (reset to 0) — an ordinary
successful evaluation leaves it untouched. -/
theorem loop_error_isolation (cycles : List (List (String × List EvalOutcome)))
    (cyc : List (String × List EvalOutcome)) (cs : List (String × ℕ))
    (sym : String) (outs : List EvalOutcome) :
    (3 ≤ counterOf cs sym →
      sym ∉ (cycleStep cyc cs).2 ∧ counterOf (cycleStep cyc cs).1 sym = counterOf cs sym)
    ∧ (3 ≤ counterOf cs sym → counterOf (runCycles cycles cs) sym = counterOf cs sym)
    ∧ (counterOf cs sym < 3 → sym ∈ cyc.map Prod.fst → sym ∈ (cycleStep cyc cs).2)
    ∧ (EvalOutcome.error ∉ outs → EvalOutcome.execSuccess ∉ outs →
        processStrategies sym outs cs = cs) :=
  ⟨fun h3 => cycleStep_skipped cyc cs sym h3,
   fun h3 => runCycles_skipped cycles cs sym h3,
   fun hlt hmem => cycleStep_evaluated cyc cs sym hlt hmem,
   fun he hs => processStrategies_no_mutation sym outs cs he hs⟩

/-- Witness for `loop_error_isolation`: with symbol A at the threshold (3) and
symbol B fresh, A is skipped with its counter unchanged while B is evaluated. -/
theorem loop_error_isolation_witness :
    ("A" ∉ (cycleStep [("A", [EvalOutcome.execSuccess]), ("B", [EvalOutcome.noAction])]
        [("A", 3)]).2
      ∧ counterOf (cycleStep [("A", [EvalOutcome.execSuccess]), ("B", [EvalOutcome.noAction])]
          [("A", 3)]).1 "A" = counterOf [("A", 3)] "A")
    ∧ "B" ∈ (cycleStep [("A", [EvalOutcome.execSuccess]), ("B", [EvalOutcome.noAction])]
        [("A", 3)]).2 :=
  ⟨(loop_error_isolation [] [("A", [EvalOutcome.execSuccess]), ("B", [EvalOutcome.noAction])]
      [("A", 3)] "A" []).1 (by decide),
   (loop_error_isolation [] [("A", [EvalOutcome.execSuccess]), ("B", [EvalOutcome.noAction])]
      [("A", 3)] "B" []).2.2.1 (by decide) (by decide)⟩

/-- C7 counterexample: symbol A, already at the threshold with an oracle whose
evaluation would succeed, is *not* evaluated again and its counter is *not*
reset (the cycle evaluates only B and leaves A at 3); and a successful HOLD
evaluation of symbol B at counter 2 leaves the counter at 2 rather than
resetting it — "a subsequent successful evaluation resets its counter so it is
evaluated again" fails on the code. -/
theorem loop_error_isolation_counterexample :
    (cycleStep [("A", [EvalOutcome.execSuccess]), ("B", [EvalOutcome.noAction])]
        [("A", 3)]).2 = ["B"]
    ∧ counterOf (cycleStep [("A", [EvalOutcome.execSuccess]), ("B", [EvalOutcome.noAction])]
        [("A", 3)]).1 "A" = 3
    ∧ counterOf (cycleStep [("B", [EvalOutcome.noAction])] [("B", 2)]).1 "B" = 2 := by
  refine ⟨?_, ?_, ?_⟩ <;> decide

/-! ## Buy-side protective-order gating (trading_engine.py:1009-1024,
trading_engine.py:672-688, base_strategy.py:58-101)

Three code paths submit stop-loss/take-profit orders after a primary market
order; they gate on different conditions: `_execute_buy` on
`order.status == 'filled'`, `TradingEngine.place_market_order` on
`order.status == 'accepted' and side == 'buy'`, and
`BaseStrategy.place_market_order` on `order.filled_qty > 0`.
-/

/-- The fields of a broker order result that these paths inspect. -/
structure OrderRes where
  status : String
  filled_qty : ℚ
deriving DecidableEq, Repr

inductive BuyEvent where
  | placeStopLoss
  | placeTakeProfit
deriving DecidableEq, Repr

/-- ASCII lower-casing of one character. -/
def lowerChar (c : Char) : Char :=
  if 'A' ≤ c ∧ c ≤ 'Z' then Char.ofNat (c.toNat + 32) else c

/-- Python `side.lower()` (trading_engine.py:668, 675) on the ASCII order
sides used here. -/
def lowerString (s : String) : String :=
  ⟨s.data.map lowerChar⟩

/-- Python truthiness of an optional float (`None` and `0.0` are falsy). -/
def truthy (x : Option ℚ) : Bool :=
  match x with
  | none => false
  | some v => decide (v ≠ 0)

/-- trading_engine.py:1018-1024 — after the primary buy in `_execute_buy`:
`if order and order.status == 'filled'`, place the stop loss then the take
profit. -/
def executeBuyProtective (order : Option OrderRes) : List BuyEvent :=
  match order with
  | none => []
  | some o =>
      if o.status = "filled" then [.placeStopLoss, .placeTakeProfit] else []

/-- trading_engine.py:674-682 — after the primary order in
`TradingEngine.place_market_order`: `if order.status == 'accepted' and
side.lower() == 'buy'`, place the take profit (if truthy) then the stop loss
(if truthy). -/
def placeMarketOrderProtective (o : OrderRes) (side : String)
    (take_profit stop_loss : Option ℚ) : List BuyEvent :=
  if o.status = "accepted" ∧ lowerString side = "buy" then
    (if truthy take_profit then [BuyEvent.placeTakeProfit] else [])
      ++ (if truthy stop_loss then [BuyEvent.placeStopLoss] else [])
  else []

/-- base_strategy.py:74-96 — after the primary order in
`BaseStrategy.place_market_order`: `if order.filled_qty > 0`, place the take
profit (if truthy) then the stop loss (if truthy). -/
def basePlaceMarketOrderProtective (o : OrderRes)
    (take_profit stop_loss : Option ℚ) : List BuyEvent :=
  if o.filled_qty > 0 then
    (if truthy take_profit then [BuyEvent.placeTakeProfit] else [])
      ++ (if truthy stop_loss then [BuyEvent.placeStopLoss] else [])
  else []

/-- C8 (amended): protective orders are gated on a condition checked on the
primary order, but the condition differs per path — `_execute_buy` requires
`status == 'filled'`; `TradingEngine.place_market_order` requires
`status == 'accepted'` (merely accepted, not a confirmed fill) and a buy side;
`BaseStrategy.place_market_order` requires only `filled_qty > 0` (any partial
fill). -/
theorem buy_protective_gates (order : Option OrderRes) (o : OrderRes) (side : String)
    (tp sl : Option ℚ) :
    (executeBuyProtective order ≠ [] →
      ∃ r, order = some r ∧ r.status = "filled"
        ∧ executeBuyProtective order = [BuyEvent.placeStopLoss, BuyEvent.placeTakeProfit])
    ∧ (placeMarketOrderProtective o side tp sl ≠ [] →
      o.status = "accepted" ∧ lowerString side = "buy")
    ∧ (basePlaceMarketOrderProtective o tp sl ≠ [] → o.filled_qty > 0) := by
  refine ⟨?_, ?_, ?_⟩
  · intro hne
    cases order with
    | none => exact absurd rfl hne
    | some r =>
      simp only [executeBuyProtective] at hne ⊢
      by_cases hs : r.status = "filled"
      · rw [if_pos hs]
        exact ⟨r, rfl, hs, rfl⟩
      · rw [if_neg hs] at hne
        exact absurd rfl hne
  · intro hne
    unfold placeMarketOrderProtective at hne
    by_cases hc : o.status = "accepted" ∧ lowerString side = "buy"
    · exact hc
    · rw [if_neg hc] at hne
      exact absurd rfl hne
  · intro hne
    unfold basePlaceMarketOrderProtective at hne
    by_cases hc : o.filled_qty > 0
    · exact hc
    · rw [if_neg hc] at hne
      exact absurd rfl hne

/-- Witness for `buy_protective_gates`: a filled primary order in
`_execute_buy` yields exactly the stop-loss-then-take-profit pair. -/
theorem buy_protective_gates_witness :
    ∃ r, (some { status := "filled", filled_qty := 1 } : Option OrderRes) = some r
      ∧ r.status = "filled"
      ∧ executeBuyProtective (some { status := "filled", filled_qty := 1 })
          = [BuyEvent.placeStopLoss, BuyEvent.placeTakeProfit] :=
  (buy_protective_gates (some { status := "filled", filled_qty := 1 })
      { status := "filled", filled_qty := 1 } "buy" none none).1
    (by simp [executeBuyProtective])

/-- C8 counterexample: `TradingEngine.place_market_order` with a primary order
whose status is `'accepted'` — not a confirmed fill (`filled_qty = 0`) —
submits both protective orders. -/
theorem buy_protective_counterexample :
    placeMarketOrderProtective { status := "accepted", filled_qty := 0 } "buy"
        (some 4) (some 2)
      = [BuyEvent.placeTakeProfit, BuyEvent.placeStopLoss]
    ∧ ("accepted" : String) ≠ "filled"
    ∧ ({ status := "accepted", filled_qty := 0 } : OrderRes).filled_qty = 0 := by
  refine ⟨?_, by decide, rfl⟩
  unfold placeMarketOrderProtective
  rw [if_pos ⟨rfl, by decide⟩]
  have h4 : truthy (some 4) = true := by
    unfold truthy
    norm_num
  have h2 : truthy (some 2) = true := by
    unfold truthy
    norm_num
  rw [h4, h2]
  rfl

/-! ## Sell (exit) sequencing in `_execute_sell` (trading_engine.py:1055-1136)

In the live path the exit market order is submitted first (line 1120) and the
still-open sell-side orders for the symbol — the protective stop-loss /
take-profit orders — are cancelled *afterwards* (lines 1128-1136).  The
guards before the submission (no position / no market data) return without
submitting anything.
-/

/-- An open order as inspected by the cancellation loop. -/
structure OpenOrder where
  id : ℕ
  symbol : String
  side : String
deriving DecidableEq, Repr

/-- The position fields `_execute_sell` inspects. -/
structure BrokerPosition where
  qty : ℚ
  avg_entry_price : ℚ
deriving DecidableEq, Repr

inductive SellEvent where
  | submitSell
  | cancelOrder (id : ℕ)
deriving DecidableEq, Repr

/-- trading_engine.py:1067-1136 — the live sell path as an ordered trace of
broker calls: nothing on a missing/empty position or missing market data;
otherwise the market sell submission followed by the cancellations of the
open sell-side orders for the symbol. -/
def executeSellEvents (position : Option BrokerPosition) (marketData : Option ℚ)
    (openOrders : List OpenOrder) (sym : String) : List SellEvent :=
  match position with
  | none => []
  | some p =>
      if p.qty ≤ 0 then []
      else
        match marketData with
        | none => []
        | some _ =>
            SellEvent.submitSell ::
              (openOrders.filter fun o => o.symbol = sym ∧ o.side = "sell").map
                (fun o => SellEvent.cancelOrder o.id)

/-- C9 (amended): in every execution of the sell sequence, every cancellation
of an open protective order happens strictly *after* the exit market order is
submitted — the code submits first and cancels afterwards (the opposite order
of the claim). -/
theorem sell_cancels_after_submit (position : Option BrokerPosition) (marketData : Option ℚ)
    (openOrders : List OpenOrder) (sym : String) (i n : ℕ)
    (h : (executeSellEvents position marketData openOrders sym).get? i
      = some (SellEvent.cancelOrder n)) :
    0 < i ∧ (executeSellEvents position marketData openOrders sym).get? 0
      = some SellEvent.submitSell := by
  cases position with
  | none => simp [executeSellEvents] at h
  | some p =>
    by_cases hq : p.qty ≤ 0
    · simp only [executeSellEvents, if_pos hq] at h
      simp at h
    · cases marketData with
      | none =>
        simp only [executeSellEvents, if_neg hq] at h
        simp at h
      | some price =>
        simp only [executeSellEvents, if_neg hq] at h ⊢
        cases i with
        | zero =>
          simp only [List.get?] at h
          cases h
        | succ j => exact ⟨Nat.succ_pos j, rfl⟩

/-- C9 counterexample: with a live position, market data, and one open
protective (sell-side) order, the trace is the exit submission *followed by*
the cancellation — the cancellation does not precede the submission. -/
theorem sell_cancel_counterexample :
    executeSellEvents (some { qty := 1, avg_entry_price := 100 }) (some 100)
        [{ id := 7, symbol := "BTC/USD", side := "sell" }] "BTC/USD"
      = [SellEvent.submitSell, SellEvent.cancelOrder 7] := by
  show (if (1:ℚ) ≤ 0 then ([] : List SellEvent)
    else SellEvent.submitSell ::
      (([{ id := 7, symbol := "BTC/USD", side := "sell" }] : List OpenOrder).filter
        (fun o => o.symbol = "BTC/USD" ∧ o.side = "sell")).map
        (fun o => SellEvent.cancelOrder o.id))
    = [SellEvent.submitSell, SellEvent.cancelOrder 7]
  rw [if_neg (by norm_num : ¬(1:ℚ) ≤ 0)]
  rfl

/-- Witness for `sell_cancels_after_submit` at the counterexample's input, at
the cancellation's index 1. -/
theorem sell_cancels_after_submit_witness :
    0 < 1 ∧ (executeSellEvents (some { qty := 1, avg_entry_price := 100 }) (some 100)
        [{ id := 7, symbol := "BTC/USD", side := "sell" }] "BTC/USD").get? 0
      = some SellEvent.submitSell := by
  apply sell_cancels_after_submit (some { qty := 1, avg_entry_price := 100 }) (some 100)
    [{ id := 7, symbol := "BTC/USD", side := "sell" }] "BTC/USD" 1 7
  show (if (1:ℚ) ≤ 0 then ([] : List SellEvent)
    else SellEvent.submitSell ::
      (([{ id := 7, symbol := "BTC/USD", side := "sell" }] : List OpenOrder).filter
        (fun o => o.symbol = "BTC/USD" ∧ o.side = "sell")).map
        (fun o => SellEvent.cancelOrder o.id)).get? 1
    = some (SellEvent.cancelOrder 7)
  rw [if_neg (by norm_num : ¬(1:ℚ) ≤ 0)]
  rfl
